import Mathlib

/-!
Registration model of `inject` (Go): `utils.go` and `inject.go`

A shallow embedding of the object-registration code.

* `reflect` is modelled by a small algebra of type descriptors (`RType`) with
  the two methods the code calls, `Kind` and `Elem`.  A `reflect.Type` is an
  interface value, so it is an `Option RType` (`none` is the nil interface).
* `*Object` values are addresses into a heap of `Object` records; `none` is the
  nil pointer.  `Provide` and `isCorrectType` write through these pointers,
  so both thread the heap.
* Go maps are association lists under an `Option`: `none` is the nil map,
  which can be read but not assigned to.
* A Go run-time panic is an explicit result (`Ret.panic`).
-/

namespace Inject

/-! ## `reflect` -/

/-- The kinds of `reflect.Kind`, in declaration order. -/
inductive Kind where
  | Invalid | Bool | Int | Int8 | Int16 | Int32 | Int64
  | Uint | Uint8 | Uint16 | Uint32 | Uint64 | Uintptr
  | Float32 | Float64 | Complex64 | Complex128
  | Array | Chan | Func | Interface | Map | Pointer | Slice
  | String | Struct | UnsafePointer
  deriving DecidableEq, Repr

/-- The kinds of types that have neither an element type nor fields, methods or a signature. -/
inductive ScalarKind where
  | Bool | Int | Int8 | Int16 | Int32 | Int64
  | Uint | Uint8 | Uint16 | Uint32 | Uint64 | Uintptr
  | Float32 | Float64 | Complex64 | Complex128
  | String | UnsafePointer
  deriving DecidableEq, Repr

/-- The `reflect.Kind` of a scalar kind. -/
def ScalarKind.toKind : ScalarKind → Kind
  | .Bool => .Bool | .Int => .Int | .Int8 => .Int8 | .Int16 => .Int16
  | .Int32 => .Int32 | .Int64 => .Int64
  | .Uint => .Uint | .Uint8 => .Uint8 | .Uint16 => .Uint16 | .Uint32 => .Uint32
  | .Uint64 => .Uint64 | .Uintptr => .Uintptr
  | .Float32 => .Float32 | .Float64 => .Float64
  | .Complex64 => .Complex64 | .Complex128 => .Complex128
  | .String => .String | .UnsafePointer => .UnsafePointer

/-- A run-time type descriptor (a non-nil `reflect.Type`). -/
inductive RType where
  | scalar (name : String) (k : ScalarKind)
  | struct (name : String)
  | interface (name : String)
  | func (signature : String)
  | pointer (elem : RType)
  | slice (elem : RType)
  | array (len : Nat) (elem : RType)
  | chan (elem : RType)
  | map (key : RType) (elem : RType)
  deriving DecidableEq, Repr

/-- A `reflect.Type` interface value; `none` is nil. -/
abbrev ReflectType := Option RType

/-- The message of the panic raised by a nil dereference or a method call on a nil interface. -/
def nilDeref : String := "invalid memory address or nil pointer dereference"

/-- `Type.Kind` on a descriptor. -/
def RType.Kind : RType → Kind
  | .scalar _ k => k.toKind
  | .struct _ => .Struct
  | .interface _ => .Interface
  | .func _ => .Func
  | .pointer _ => .Pointer
  | .slice _ => .Slice
  | .array _ _ => .Array
  | .chan _ => .Chan
  | .map _ _ => .Map

/-- `Type.Elem` on a descriptor: it panics unless the kind is Array, Chan, Map, Pointer or Slice. -/
def RType.Elem : RType → Except String RType
  | .pointer e => .ok e
  | .slice e => .ok e
  | .array _ e => .ok e
  | .chan e => .ok e
  | .map _ e => .ok e
  | _ => .error "reflect: Elem of invalid type"

/-- The method call `v.Kind()` on an interface value. -/
def reflectKind (v : ReflectType) : Except String Kind :=
  match v with
  | none => .error nilDeref
  | some t => .ok t.Kind

/-- The method call `v.Elem()` on an interface value. -/
def reflectElem (v : ReflectType) : Except String ReflectType :=
  match v with
  | none => .error nilDeref
  | some t => (t.Elem).map some

/-- A non-nil value of interface type `any`: its dynamic type and its data word. -/
structure Iface where
  typ : RType
  data : Nat
  deriving DecidableEq, Repr

/-- A value of type `any`; `none` is the nil interface. -/
abbrev AnyValue := Option Iface

/-- A `reflect.Value`; `none` is the zero Value. -/
abbrev ReflectValue := Option Iface

/-- `reflect.TypeOf`. -/
def TypeOf (i : AnyValue) : ReflectType := i.map Iface.typ

/-- `reflect.ValueOf`. -/
def ValueOf (i : AnyValue) : ReflectValue := i

/-! ## `inject.go`: the data model -/

/-- `type objectType int`. -/
abbrev objectType := Int

/-- `structPointer objectType = iota + 1`, the first constant of its block. -/
def structPointer : objectType := 0 + 1

/-- The second constant of the block: `iota + 1` with `iota = 1`. -/
def function : objectType := 1 + 1

/-- A `*Object`: `none` is nil, `some a` points to the object at address `a`. -/
abbrev Ptr := Option Nat

/-- `type Object struct`. -/
structure Object where
  Value : AnyValue
  Name : String
  reflectType : ReflectType
  reflectValue : ReflectValue
  t : objectType
  complete : Bool
  deriving DecidableEq, Repr

/-- The objects the program has allocated, by address. -/
abbrev Heap := Nat → Object

/-- The descriptor of the struct type `inject.Object`. -/
def objectStructType : RType := .struct "inject.Object"

/-- The descriptor of `*inject.Object`, the static type of every element of `obj ...*Object`. -/
def objectPtrType : RType := .pointer objectStructType

/-- Conversion of a `*Object` to `any`, as done for the argument of `reflect.TypeOf(v)`:
the dynamic type is the static type of `v`, also when `v` is nil. -/
def ptrToAny (v : Ptr) : AnyValue :=
  some { typ := objectPtrType, data := match v with | none => 0 | some a => a + 1 }

/-- A Go map: `none` is the nil map. -/
abbrev GoMap (K : Type) (V : Type) := Option (List (K × V))

/-- The entry of an association list under a key. -/
def lookup {K V : Type} [DecidableEq K] (k : K) : List (K × V) → Option V
  | [] => none
  | (k', v) :: rest => if k' = k then some v else lookup k rest

/-- Binding of a key in an association list: the entry is replaced when the key is bound,
added otherwise. -/
def assign {K V : Type} [DecidableEq K] (k : K) (v : V) : List (K × V) → List (K × V)
  | [] => [(k, v)]
  | (k', v') :: rest => if k' = k then (k, v) :: rest else (k', v') :: assign k v rest

/-- The read `m[k]` with the comma-ok form: `none` when the key is absent (always so in a nil map). -/
def GoMap.get {K V : Type} [DecidableEq K] (m : GoMap K V) (k : K) : Option V :=
  match m with
  | none => none
  | some l => lookup k l

/-- The assignment `m[k] = v`: it panics on a nil map. -/
def GoMap.set {K V : Type} [DecidableEq K] (m : GoMap K V) (k : K) (v : V) :
    Except String (GoMap K V) :=
  match m with
  | none => .error "assignment to entry in nil map"
  | some l => .ok (some (assign k v l))

/-- The builtin `len(m)`. -/
def GoMap.len {K V : Type} (m : GoMap K V) : Nat :=
  match m with
  | none => 0
  | some l => l.length

/-- `type Graph struct`; a `Logger` interface value is `none` (nil) or an implementation. -/
structure Graph where
  logger : Option Nat
  startPoint : List Ptr
  namePool : GoMap String Ptr
  unnamedPool : GoMap ReflectType Ptr
  deriving DecidableEq, Repr

/-- The errors built by `fmt.Errorf`, with the arguments that are formatted into them. -/
inductive Error where
  | unsupportedType (t : ReflectType) (value : AnyValue)
  | duplicateType (t : ReflectType) (held : Ptr)
  | duplicateName (t : ReflectType) (name : String)
  deriving DecidableEq, Repr

/-- What a call gives back: the nil error, an error, or a run-time panic. -/
inductive Ret where
  | nil
  | err (e : Error)
  | panic (msg : String)
  deriving DecidableEq, Repr

/-- The program state: the receiver `*g` and the heap of objects. -/
structure State where
  g : Graph
  heap : Heap

/-! ## `utils.go` -/

/-- `func isStructPointer(v reflect.Type) bool`; `&&` evaluates `v.Elem()` only for a pointer. -/
def isStructPointer (v : ReflectType) : Except String Bool :=
  match reflectKind v with
  | .error m => .error m
  | .ok k =>
    if k = Kind.Pointer then
      match reflectElem v with
      | .error m => .error m
      | .ok e =>
        match reflectKind e with
        | .error m => .error m
        | .ok k' => .ok (decide (k' = Kind.Struct))
    else .ok false

/-- `func isFunction(v reflect.Type) bool`. -/
def isFunction (v : ReflectType) : Except String Bool :=
  match reflectKind v with
  | .error m => .error m
  | .ok k => .ok (decide (k = Kind.Func))

/-- The assignment `o.t = k` through the pointer `o`. -/
def setKind (h : Heap) (o : Ptr) (k : objectType) : Heap × Ret :=
  match o with
  | none => (h, .panic nilDeref)
  | some a => (Function.update h a { h a with t := k }, .nil)

/-- `func isCorrectType(o *Object, t reflect.Type) error`. -/
def isCorrectType (h : Heap) (o : Ptr) (t : ReflectType) : Heap × Ret :=
  match isStructPointer t with
  | .error m => (h, .panic m)
  | .ok true => setKind h o structPointer
  | .ok false =>
    match isFunction t with
    | .error m => (h, .panic m)
    | .ok true => setKind h o function
    | .ok false =>
      match o with
      | none => (h, .panic nilDeref)
      | some a => (h, .err (.unsupportedType (h a).reflectType (h a).Value))

/-! ## `inject.go`: `Provide` and `NewGraph` -/

/-- The two `if ... == nil` blocks at the head of `Provide`. -/
def initPools (g : Graph) : Graph :=
  let g1 := if g.unnamedPool = none then { g with unnamedPool := some [] } else g
  if g1.namePool = none then { g1 with namePool := some [] } else g1

/-- One iteration of the loop `for _, v := range obj`; `Ret.nil` means the loop goes on. -/
def provideOne (s : State) (v : Ptr) : State × Ret :=
  match v with
  | none => (s, .panic nilDeref)
  | some a =>
    let h1 := Function.update s.heap a { s.heap a with reflectType := TypeOf (ptrToAny v) }
    let h2 := Function.update h1 a { h1 a with reflectValue := ValueOf (ptrToAny v) }
    match isCorrectType h2 v (h2 a).reflectType with
    | (h3, .nil) =>
      if (h3 a).Name = "" then
        match s.g.unnamedPool.get (h3 a).reflectType with
        | some held => ({ g := s.g, heap := h3 }, .err (.duplicateType (h3 a).reflectType held))
        | none =>
          match s.g.unnamedPool.set (h3 a).reflectType v with
          | .error m => ({ g := s.g, heap := h3 }, .panic m)
          | .ok m =>
            ({ g := { s.g with unnamedPool := m, startPoint := s.g.startPoint ++ [v] },
               heap := h3 }, .nil)
      else
        match s.g.namePool.get (h3 a).Name with
        | some _ => ({ g := s.g, heap := h3 }, .err (.duplicateName (h3 a).reflectType (h3 a).Name))
        | none =>
          match s.g.namePool.set (h3 a).Name v with
          | .error m => ({ g := s.g, heap := h3 }, .panic m)
          | .ok m =>
            ({ g := { s.g with namePool := m, startPoint := s.g.startPoint ++ [v] },
               heap := h3 }, .nil)
    | (h3, r) => ({ g := s.g, heap := h3 }, r)

/-- The loop of `Provide` over the remaining arguments. -/
def provideLoop (s : State) : List Ptr → State × Ret
  | [] => (s, .nil)
  | v :: rest =>
    match provideOne s v with
    | (s1, .nil) => provideLoop s1 rest
    | (s1, r) => (s1, r)

/-- `func (g *Graph) Provide(obj ...*Object) error`. -/
def Provide (s : State) (obj : List Ptr) : State × Ret :=
  provideLoop { g := initPools s.g, heap := s.heap } obj

/-- `type GraphConfig struct`. -/
structure GraphConfig where
  Logger : Option Nat
  deriving DecidableEq, Repr

/-- `func NewGraph(c *GraphConfig) *Graph`; reading `c.Logger` through a nil `c` panics. -/
def NewGraph (c : Option GraphConfig) : Except String Graph :=
  match c with
  | none => .error nilDeref
  | some cfg => .ok { logger := cfg.Logger, startPoint := [], namePool := none, unnamedPool := none }

/-! ## Concrete inputs -/

/-- The zero `Graph`, as `NewGraph` builds it without a logger. -/
def emptyGraph : Graph := { logger := none, startPoint := [], namePool := none, unnamedPool := none }

/-- A caller-built `&Object{Value: v, Name: n}`. -/
def mkObject (v : AnyValue) (n : String) : Object :=
  { Value := v, Name := n, reflectType := none, reflectValue := none, t := 0, complete := false }

/-- The descriptor of `*Foo` for a struct type `Foo`. -/
def fooPtrType : RType := .pointer (.struct "Foo")

/-- The descriptor of `*Bar` for a struct type `Bar`. -/
def barPtrType : RType := .pointer (.struct "Bar")

/-- The descriptor of `func()`. -/
def funcType : RType := .func "func()"

/-- The descriptor of `int`. -/
def intType : RType := .scalar "int" .Int

/-- What the loop body writes into the object at `a` before it looks at the pools: the
reflected type and value of the pointer, and the kind the classifier derives from that type. -/
def stamp (h : Heap) (a : Nat) : Heap :=
  Function.update h a
    { h a with
      reflectType := some objectPtrType
      reflectValue := ptrToAny (some a)
      t := structPointer }

/-- What the caller does between two calls of `Provide` (it may rewrite the objects it
owns), and the arguments of the next call. -/
structure Call where
  edit : Heap → Heap
  objs : List Ptr

/-- One call of `Provide` after the caller's edits. -/
def callOn (s : State) (c : Call) : State × Ret :=
  Provide { g := s.g, heap := c.edit s.heap } c.objs

/-- A sequence of calls of `Provide` on the same graph; a call that fails or panics leaves
the graph as it is at that point, and the sequence goes on. -/
def run (s : State) : List Call → State
  | [] => s
  | c :: rest => run (callOn s c).1 rest

/-- The arguments for which the loop body ran to its end (one of the two insertions), in
input order: those before the first one that is rejected. -/
def accepted (s : State) : List Ptr → List Ptr
  | [] => []
  | v :: rest =>
    match provideOne s v with
    | (s1, .nil) => v :: accepted s1 rest
    | _ => []

/-- The arguments a call inserts. -/
def acceptedBy (s : State) (c : Call) : List Ptr :=
  accepted { g := initPools s.g, heap := c.edit s.heap } c.objs

/-- The arguments a sequence of calls inserts, in call order. -/
def acceptedAll (s : State) : List Call → List Ptr
  | [] => []
  | c :: rest => acceptedBy s c ++ acceptedAll (callOn s c).1 rest

/-- The pointer is held by the graph: in start-points or bound in one of the pools. -/
def Holds (g : Graph) (p : Ptr) : Prop :=
  p ∈ g.startPoint ∨ (∃ k, g.namePool.get k = some p) ∨ (∃ t, g.unnamedPool.get t = some p)

/-- A heap for the examples: object 0 is an unnamed `*Foo`, 1 an unnamed `*Bar`, 2 a `*Foo`
named "alt", 3 a `*Bar` named "alt", 4 an unnamed `func()`, 5 an unnamed `int` 42, and
every other object an unnamed `*Foo`. -/
def demoHeap : Heap := fun a =>
  match a with
  | 1 => mkObject (some { typ := barPtrType, data := 1 }) ""
  | 2 => mkObject (some { typ := fooPtrType, data := 2 }) "alt"
  | 3 => mkObject (some { typ := barPtrType, data := 3 }) "alt"
  | 4 => mkObject (some { typ := funcType, data := 4 }) ""
  | 5 => mkObject (some { typ := intType, data := 42 }) ""
  | _ => mkObject (some { typ := fooPtrType, data := a }) ""

/-- The empty graph with the example heap. -/
def demoState : State := { g := emptyGraph, heap := demoHeap }

/-- The map with a nil map replaced by an empty one. -/
def orEmpty {K V : Type} (m : GoMap K V) : GoMap K V :=
  match m with
  | none => some []
  | some l => some l

/-- The graph with another logger. -/
def withLogger (g : Graph) (l : Option Nat) : Graph := { g with logger := l }

/-- The graph has no start-points and no pool entries; its maps may be nil, as `NewGraph`
leaves them, or empty. -/
def IsEmptyGraph (g : Graph) : Prop :=
  g.startPoint = [] ∧ g.namePool.len = 0 ∧ g.unnamedPool.len = 0

/-- The states reachable from an empty graph by calls of `Provide`.  Between the calls the
caller may build and rewrite the objects that are not registered; the registered ones
are left as they are. -/
inductive Reachable : State → Prop where
  | init (g : Graph) (heap : Heap) (hempty : IsEmptyGraph g) : Reachable { g := g, heap := heap }
  | provide (s : State) (objs : List Ptr) (before : Reachable s) : Reachable (Provide s objs).1
  | edit (s : State) (heap : Heap) (before : Reachable s)
      (kept : ∀ a, Holds s.g (some a) → heap a = s.heap a) :
      Reachable { g := s.g, heap := heap }

/-- The keys of a map, in the order of its entries. -/
def GoMap.keys {K V : Type} (m : GoMap K V) : List K :=
  match m with
  | none => []
  | some l => l.map Prod.fst

/-- The invariant of the registration: what start-points, the two pools and the registered
objects have to do with each other. -/
structure Inv (s : State) : Prop where
  start : ∀ p ∈ s.g.startPoint, ∃ a, p = some a ∧ (s.heap a).t = structPointer ∧
    (s.heap a).reflectType = some objectPtrType ∧
    (((s.heap a).Name = "" ∧ s.g.unnamedPool.get (some objectPtrType) = some p) ∨
      ((s.heap a).Name ≠ "" ∧ s.g.namePool.get (s.heap a).Name = some p))
  named : ∀ k p, s.g.namePool.get k = some p →
    p ∈ s.g.startPoint ∧ ∃ a, p = some a ∧ (s.heap a).Name = k ∧ k ≠ ""
  unnamed : ∀ t p, s.g.unnamedPool.get t = some p →
    p ∈ s.g.startPoint ∧ t = some objectPtrType ∧ ∃ a, p = some a ∧ (s.heap a).Name = ""
  length : s.g.startPoint.length = s.g.namePool.len + s.g.unnamedPool.len
  single : s.g.unnamedPool.len = 0 ∨ ∃ p, s.g.unnamedPool = some [(some objectPtrType, p)]
  nameKeys : s.g.namePool.keys.Nodup

/-- The descriptor is a pointer type whose element is a struct type. -/
def IsPointerToStruct (t : RType) : Prop := ∃ name, t = .pointer (.struct name)

/-- The descriptor is a function type. -/
def IsFunctionType (t : RType) : Prop := ∃ signature, t = .func signature

/-! ## The classifier and one loop iteration -/

theorem isStructPointer_objectPtrType : isStructPointer (some objectPtrType) = .ok true := by
  rfl

theorem stamp_Name (h : Heap) (a b : Nat) : (stamp h a b).Name = (h b).Name := by
  unfold stamp
  by_cases hb : b = a
  · subst hb; simp
  · simp [Function.update_noteq hb]

theorem stamp_reflectType_self (h : Heap) (a : Nat) :
    (stamp h a a).reflectType = some objectPtrType := by
  simp [stamp]

/-- The loop body on a non-nil pointer, with the classifier call evaluated. -/
theorem provideOne_some (s : State) (a : Nat) :
    provideOne s (some a) =
      if (s.heap a).Name = "" then
        match s.g.unnamedPool.get (some objectPtrType) with
        | some held =>
          ({ g := s.g, heap := stamp s.heap a },
            .err (.duplicateType (some objectPtrType) held))
        | none =>
          match s.g.unnamedPool.set (some objectPtrType) (some a) with
          | .error m => ({ g := s.g, heap := stamp s.heap a }, .panic m)
          | .ok m =>
            ({ g := { s.g with unnamedPool := m, startPoint := s.g.startPoint ++ [some a] },
               heap := stamp s.heap a }, .nil)
      else
        match s.g.namePool.get (s.heap a).Name with
        | some _ =>
          ({ g := s.g, heap := stamp s.heap a },
            .err (.duplicateName (some objectPtrType) (s.heap a).Name))
        | none =>
          match s.g.namePool.set (s.heap a).Name (some a) with
          | .error m => ({ g := s.g, heap := stamp s.heap a }, .panic m)
          | .ok m =>
            ({ g := { s.g with namePool := m, startPoint := s.g.startPoint ++ [some a] },
               heap := stamp s.heap a }, .nil) := by
  have hst : Function.update
      (Function.update
        (Function.update s.heap a
          { s.heap a with reflectType := TypeOf (ptrToAny (some a)) })
        a { s.heap a with reflectType := TypeOf (ptrToAny (some a)),
                          reflectValue := ValueOf (ptrToAny (some a)) })
      a { s.heap a with reflectType := TypeOf (ptrToAny (some a)),
                        reflectValue := ValueOf (ptrToAny (some a)),
                        t := structPointer } = stamp s.heap a := by
    funext b
    by_cases hb : b = a
    · subst hb; simp [stamp, TypeOf, ValueOf, ptrToAny]
    · simp [stamp, Function.update_noteq hb]
  simp only [provideOne, Function.update_same]
  have hty : TypeOf (ptrToAny (some a)) = some objectPtrType := rfl
  simp only [hty, isCorrectType, isStructPointer_objectPtrType, setKind, Function.update_same]
  rw [← hty, hst]

/-! ## Association lists and maps -/

theorem lookup_assign_self {K V : Type} [DecidableEq K] (k : K) (v : V) (l : List (K × V)) :
    lookup k (assign k v l) = some v := by
  induction l with
  | nil => simp [assign, lookup]
  | cons hd tl ih =>
    obtain ⟨k', v'⟩ := hd
    by_cases hk : k' = k
    · simp [assign, lookup, hk]
    · simp [assign, lookup, hk, ih]

theorem lookup_assign_other {K V : Type} [DecidableEq K] (k k' : K) (v : V) (l : List (K × V))
    (hne : k ≠ k') : lookup k' (assign k v l) = lookup k' l := by
  induction l with
  | nil => simp [assign, lookup, hne]
  | cons hd tl ih =>
    obtain ⟨k1, v1⟩ := hd
    by_cases hk : k1 = k
    · subst hk; simp [assign, lookup, hne]
    · by_cases hk' : k1 = k'
      · subst hk'
        simp [assign, lookup, hk]
      · simp [assign, lookup, hk, hk', ih]

theorem assign_of_lookup_none {K V : Type} [DecidableEq K] (k : K) (v : V) (l : List (K × V))
    (hnone : lookup k l = none) : assign k v l = l ++ [(k, v)] := by
  induction l with
  | nil => simp [assign]
  | cons hd tl ih =>
    obtain ⟨k1, v1⟩ := hd
    by_cases hk : k1 = k
    · simp [lookup, hk] at hnone
    · simp only [lookup, hk, if_false] at hnone
      simp [assign, hk, ih hnone]

/-- An assignment to an unbound key keeps every binding. -/
theorem GoMap.get_set_mono {K V : Type} [DecidableEq K] (m m' : GoMap K V) (k k' : K) (v p : V)
    (hfree : m.get k = none) (hset : m.set k v = .ok m') (hget : m.get k' = some p) :
    m'.get k' = some p := by
  cases m with
  | none => simp [GoMap.get] at hget
  | some l =>
    simp only [GoMap.set, Except.ok.injEq] at hset
    subst hset
    simp only [GoMap.get] at hfree hget ⊢
    have hne : k ≠ k' := by
      intro h
      subst h
      rw [hfree] at hget
      exact Option.noConfusion hget
    rw [lookup_assign_other k k' v l hne]
    exact hget

theorem GoMap.get_set_self {K V : Type} [DecidableEq K] (m m' : GoMap K V) (k : K) (v : V)
    (hset : m.set k v = .ok m') : m'.get k = some v := by
  cases m with
  | none => simp [GoMap.set] at hset
  | some l =>
    simp only [GoMap.set, Except.ok.injEq] at hset
    subst hset
    simp [GoMap.get, lookup_assign_self]

/-! ## Pool initialisation -/

theorem initPools_startPoint (g : Graph) : (initPools g).startPoint = g.startPoint := by
  unfold initPools
  by_cases h1 : g.unnamedPool = none <;> by_cases h2 : g.namePool = none <;> simp [h1, h2]

theorem initPools_logger (g : Graph) : (initPools g).logger = g.logger := by
  unfold initPools
  by_cases h1 : g.unnamedPool = none <;> by_cases h2 : g.namePool = none <;> simp [h1, h2]

theorem initPools_namePool_get (g : Graph) (k : String) :
    (initPools g).namePool.get k = g.namePool.get k := by
  unfold initPools
  by_cases h1 : g.unnamedPool = none <;> by_cases h2 : g.namePool = none <;>
    simp [h1, h2, GoMap.get, lookup]

theorem initPools_unnamedPool_get (g : Graph) (t : ReflectType) :
    (initPools g).unnamedPool.get t = g.unnamedPool.get t := by
  unfold initPools
  by_cases h1 : g.unnamedPool = none <;> by_cases h2 : g.namePool = none <;>
    simp [h1, h2, GoMap.get, lookup]

theorem initPools_unnamedPool_ne (g : Graph) : (initPools g).unnamedPool ≠ none := by
  unfold initPools
  by_cases h1 : g.unnamedPool = none <;> by_cases h2 : g.namePool = none <;> simp [h1, h2]

theorem initPools_namePool_ne (g : Graph) : (initPools g).namePool ≠ none := by
  unfold initPools
  by_cases h1 : g.unnamedPool = none <;> by_cases h2 : g.namePool = none <;> simp [h1, h2]

theorem initPools_of_ne (g : Graph) (h1 : g.unnamedPool ≠ none) (h2 : g.namePool ≠ none) :
    initPools g = g := by
  simp [initPools, h1, h2]

/-! ## One loop iteration and the graph -/

theorem provideOne_none (s : State) : provideOne s none = (s, .panic nilDeref) := rfl

/-- The six ways through the loop body for a non-nil pointer. -/
theorem provideOne_cases (s : State) (a : Nat) :
    (∃ held, (s.heap a).Name = "" ∧ s.g.unnamedPool.get (some objectPtrType) = some held ∧
      provideOne s (some a) = ({ g := s.g, heap := stamp s.heap a },
        .err (.duplicateType (some objectPtrType) held))) ∨
    (∃ msg, (s.heap a).Name = "" ∧ s.g.unnamedPool.get (some objectPtrType) = none ∧
      s.g.unnamedPool.set (some objectPtrType) (some a) = .error msg ∧
      provideOne s (some a) = ({ g := s.g, heap := stamp s.heap a }, .panic msg)) ∨
    (∃ m, (s.heap a).Name = "" ∧ s.g.unnamedPool.get (some objectPtrType) = none ∧
      s.g.unnamedPool.set (some objectPtrType) (some a) = .ok m ∧
      provideOne s (some a) =
        ({ g := { s.g with unnamedPool := m, startPoint := s.g.startPoint ++ [some a] },
           heap := stamp s.heap a }, .nil)) ∨
    (∃ held, (s.heap a).Name ≠ "" ∧ s.g.namePool.get (s.heap a).Name = some held ∧
      provideOne s (some a) = ({ g := s.g, heap := stamp s.heap a },
        .err (.duplicateName (some objectPtrType) (s.heap a).Name))) ∨
    (∃ msg, (s.heap a).Name ≠ "" ∧ s.g.namePool.get (s.heap a).Name = none ∧
      s.g.namePool.set (s.heap a).Name (some a) = .error msg ∧
      provideOne s (some a) = ({ g := s.g, heap := stamp s.heap a }, .panic msg)) ∨
    (∃ m, (s.heap a).Name ≠ "" ∧ s.g.namePool.get (s.heap a).Name = none ∧
      s.g.namePool.set (s.heap a).Name (some a) = .ok m ∧
      provideOne s (some a) =
        ({ g := { s.g with namePool := m, startPoint := s.g.startPoint ++ [some a] },
           heap := stamp s.heap a }, .nil)) := by
  rw [provideOne_some]
  by_cases hn : (s.heap a).Name = ""
  · rw [if_pos hn]
    cases hget : s.g.unnamedPool.get (some objectPtrType) with
    | some held => exact Or.inl ⟨held, hn, rfl, rfl⟩
    | none =>
      cases hset : s.g.unnamedPool.set (some objectPtrType) (some a) with
      | error msg => exact Or.inr (Or.inl ⟨msg, hn, rfl, rfl, rfl⟩)
      | ok m => exact Or.inr (Or.inr (Or.inl ⟨m, hn, rfl, rfl, rfl⟩))
  · rw [if_neg hn]
    cases hget : s.g.namePool.get (s.heap a).Name with
    | some held =>
      exact Or.inr (Or.inr (Or.inr (Or.inl ⟨held, hn, rfl, rfl⟩)))
    | none =>
      cases hset : s.g.namePool.set (s.heap a).Name (some a) with
      | error msg =>
        exact Or.inr (Or.inr (Or.inr (Or.inr (Or.inl ⟨msg, hn, rfl, rfl, rfl⟩))))
      | ok m =>
        exact Or.inr (Or.inr (Or.inr (Or.inr (Or.inr ⟨m, hn, rfl, rfl, rfl⟩))))

theorem provideOne_namePool_mono (s : State) (v : Ptr) (k : String) (p : Ptr)
    (h : s.g.namePool.get k = some p) : (provideOne s v).1.g.namePool.get k = some p := by
  cases v with
  | none => simpa [provideOne_none] using h
  | some a =>
    rcases provideOne_cases s a with ⟨_, _, _, he⟩ | ⟨_, _, _, _, he⟩ | ⟨_, _, _, _, he⟩ |
      ⟨_, _, _, he⟩ | ⟨_, _, _, _, he⟩ | ⟨m, _, hfree, hset, he⟩ <;> rw [he]
    all_goals first
      | exact h
      | exact GoMap.get_set_mono _ _ _ _ _ _ hfree hset h

theorem provideOne_unnamedPool_mono (s : State) (v : Ptr) (t : ReflectType) (p : Ptr)
    (h : s.g.unnamedPool.get t = some p) : (provideOne s v).1.g.unnamedPool.get t = some p := by
  cases v with
  | none => simpa [provideOne_none] using h
  | some a =>
    rcases provideOne_cases s a with ⟨_, _, _, he⟩ | ⟨_, _, _, _, he⟩ | ⟨m, _, hfree, hset, he⟩ |
      ⟨_, _, _, he⟩ | ⟨_, _, _, _, he⟩ | ⟨_, _, _, _, he⟩ <;> rw [he]
    all_goals first
      | exact h
      | exact GoMap.get_set_mono _ _ _ _ _ _ hfree hset h

theorem provideOne_startPoint (s : State) (v : Ptr) :
    (provideOne s v).1.g.startPoint =
      s.g.startPoint ++ (if (provideOne s v).2 = .nil then [v] else []) := by
  cases v with
  | none => simp [provideOne_none]
  | some a =>
    rcases provideOne_cases s a with ⟨_, _, _, he⟩ | ⟨_, _, _, _, he⟩ | ⟨_, _, _, _, he⟩ |
      ⟨_, _, _, he⟩ | ⟨_, _, _, _, he⟩ | ⟨_, _, _, _, he⟩ <;> rw [he] <;> simp

theorem provideOne_g_of_ne_nil (s : State) (v : Ptr) (h : (provideOne s v).2 ≠ .nil) :
    (provideOne s v).1.g = s.g := by
  cases v with
  | none => simp [provideOne_none]
  | some a =>
    rcases provideOne_cases s a with ⟨_, _, _, he⟩ | ⟨_, _, _, _, he⟩ | ⟨_, _, _, _, he⟩ |
      ⟨_, _, _, he⟩ | ⟨_, _, _, _, he⟩ | ⟨_, _, _, _, he⟩ <;> rw [he] at h ⊢ <;> simp at h ⊢

theorem provideOne_logger (s : State) (v : Ptr) : (provideOne s v).1.g.logger = s.g.logger := by
  cases v with
  | none => simp [provideOne_none]
  | some a =>
    rcases provideOne_cases s a with ⟨_, _, _, he⟩ | ⟨_, _, _, _, he⟩ | ⟨_, _, _, _, he⟩ |
      ⟨_, _, _, he⟩ | ⟨_, _, _, _, he⟩ | ⟨_, _, _, _, he⟩ <;> rw [he]

theorem GoMap.set_ne_none {K V : Type} [DecidableEq K] (m m' : GoMap K V) (k : K) (v : V)
    (hset : m.set k v = .ok m') : m' ≠ none := by
  cases m with
  | none => simp [GoMap.set] at hset
  | some l =>
    simp only [GoMap.set, Except.ok.injEq] at hset
    subst hset
    simp

theorem provideOne_unnamedPool_ne (s : State) (v : Ptr) (h : s.g.unnamedPool ≠ none) :
    (provideOne s v).1.g.unnamedPool ≠ none := by
  cases v with
  | none => simpa [provideOne_none] using h
  | some a =>
    rcases provideOne_cases s a with ⟨_, _, _, he⟩ | ⟨_, _, _, _, he⟩ | ⟨m, _, hfree, hset, he⟩ |
      ⟨_, _, _, he⟩ | ⟨_, _, _, _, he⟩ | ⟨_, _, _, _, he⟩ <;> rw [he]
    all_goals first
      | exact h
      | exact GoMap.set_ne_none _ _ _ _ hset

theorem provideOne_namePool_ne (s : State) (v : Ptr) (h : s.g.namePool ≠ none) :
    (provideOne s v).1.g.namePool ≠ none := by
  cases v with
  | none => simpa [provideOne_none] using h
  | some a =>
    rcases provideOne_cases s a with ⟨_, _, _, he⟩ | ⟨_, _, _, _, he⟩ | ⟨_, _, _, _, he⟩ |
      ⟨_, _, _, he⟩ | ⟨_, _, _, _, he⟩ | ⟨m, _, hfree, hset, he⟩ <;> rw [he]
    all_goals first
      | exact h
      | exact GoMap.set_ne_none _ _ _ _ hset

/-! ## The loop -/

theorem provideLoop_cons_of_nil (s : State) (v : Ptr) (rest : List Ptr)
    (h : (provideOne s v).2 = .nil) :
    provideLoop s (v :: rest) = provideLoop (provideOne s v).1 rest := by
  rw [provideLoop]
  revert h
  generalize provideOne s v = r
  obtain ⟨s1, r1⟩ := r
  intro h
  simp only at h
  subst h
  rfl

theorem provideLoop_cons_of_ne (s : State) (v : Ptr) (rest : List Ptr)
    (h : (provideOne s v).2 ≠ .nil) :
    provideLoop s (v :: rest) = provideOne s v := by
  rw [provideLoop]
  revert h
  generalize provideOne s v = r
  obtain ⟨s1, r1⟩ := r
  intro h
  cases r1 with
  | nil => exact absurd rfl h
  | err e => rfl
  | panic m => rfl

theorem accepted_cons_of_nil (s : State) (v : Ptr) (rest : List Ptr)
    (h : (provideOne s v).2 = .nil) :
    accepted s (v :: rest) = v :: accepted (provideOne s v).1 rest := by
  rw [accepted]
  revert h
  generalize provideOne s v = r
  obtain ⟨s1, r1⟩ := r
  intro h
  simp only at h
  subst h
  rfl

theorem accepted_cons_of_ne (s : State) (v : Ptr) (rest : List Ptr)
    (h : (provideOne s v).2 ≠ .nil) : accepted s (v :: rest) = [] := by
  rw [accepted]
  revert h
  generalize provideOne s v = r
  obtain ⟨s1, r1⟩ := r
  intro h
  cases r1 with
  | nil => exact absurd rfl h
  | err e => rfl
  | panic m => rfl

theorem provideLoop_namePool_mono (s : State) (objs : List Ptr) (k : String) (p : Ptr)
    (h : s.g.namePool.get k = some p) : (provideLoop s objs).1.g.namePool.get k = some p := by
  induction objs generalizing s with
  | nil => exact h
  | cons v rest ih =>
    by_cases hr : (provideOne s v).2 = .nil
    · rw [provideLoop_cons_of_nil s v rest hr]
      exact ih _ (provideOne_namePool_mono s v k p h)
    · rw [provideLoop_cons_of_ne s v rest hr]
      exact provideOne_namePool_mono s v k p h

theorem provideLoop_unnamedPool_mono (s : State) (objs : List Ptr) (t : ReflectType) (p : Ptr)
    (h : s.g.unnamedPool.get t = some p) :
    (provideLoop s objs).1.g.unnamedPool.get t = some p := by
  induction objs generalizing s with
  | nil => exact h
  | cons v rest ih =>
    by_cases hr : (provideOne s v).2 = .nil
    · rw [provideLoop_cons_of_nil s v rest hr]
      exact ih _ (provideOne_unnamedPool_mono s v t p h)
    · rw [provideLoop_cons_of_ne s v rest hr]
      exact provideOne_unnamedPool_mono s v t p h

theorem provideLoop_startPoint (s : State) (objs : List Ptr) :
    (provideLoop s objs).1.g.startPoint = s.g.startPoint ++ accepted s objs := by
  induction objs generalizing s with
  | nil => simp [provideLoop, accepted]
  | cons v rest ih =>
    by_cases hr : (provideOne s v).2 = .nil
    · rw [provideLoop_cons_of_nil s v rest hr, accepted_cons_of_nil s v rest hr, ih,
        provideOne_startPoint, if_pos hr]
      simp
    · rw [provideLoop_cons_of_ne s v rest hr, accepted_cons_of_ne s v rest hr,
        provideOne_startPoint, if_neg hr]

theorem provideLoop_logger (s : State) (objs : List Ptr) :
    (provideLoop s objs).1.g.logger = s.g.logger := by
  induction objs generalizing s with
  | nil => rfl
  | cons v rest ih =>
    by_cases hr : (provideOne s v).2 = .nil
    · rw [provideLoop_cons_of_nil s v rest hr, ih, provideOne_logger]
    · rw [provideLoop_cons_of_ne s v rest hr, provideOne_logger]

theorem provideLoop_unnamedPool_ne (s : State) (objs : List Ptr) (h : s.g.unnamedPool ≠ none) :
    (provideLoop s objs).1.g.unnamedPool ≠ none := by
  induction objs generalizing s with
  | nil => exact h
  | cons v rest ih =>
    by_cases hr : (provideOne s v).2 = .nil
    · rw [provideLoop_cons_of_nil s v rest hr]
      exact ih _ (provideOne_unnamedPool_ne s v h)
    · rw [provideLoop_cons_of_ne s v rest hr]
      exact provideOne_unnamedPool_ne s v h

theorem provideLoop_namePool_ne (s : State) (objs : List Ptr) (h : s.g.namePool ≠ none) :
    (provideLoop s objs).1.g.namePool ≠ none := by
  induction objs generalizing s with
  | nil => exact h
  | cons v rest ih =>
    by_cases hr : (provideOne s v).2 = .nil
    · rw [provideLoop_cons_of_nil s v rest hr]
      exact ih _ (provideOne_namePool_ne s v h)
    · rw [provideLoop_cons_of_ne s v rest hr]
      exact provideOne_namePool_ne s v h

/-- The loop over a concatenation is the loop over the first part and, when that ends
without an error, the loop over the second part. -/
theorem provideLoop_append (s : State) (xs ys : List Ptr) :
    provideLoop s (xs ++ ys) =
      if (provideLoop s xs).2 = .nil then provideLoop (provideLoop s xs).1 ys
      else provideLoop s xs := by
  induction xs generalizing s with
  | nil => simp [provideLoop]
  | cons v rest ih =>
    by_cases hr : (provideOne s v).2 = .nil
    · rw [List.cons_append, provideLoop_cons_of_nil s v _ hr, provideLoop_cons_of_nil s v _ hr, ih]
    · rw [List.cons_append, provideLoop_cons_of_ne s v _ hr, provideLoop_cons_of_ne s v _ hr,
        if_neg hr]

theorem accepted_of_nil (s : State) (objs : List Ptr) (h : (provideLoop s objs).2 = .nil) :
    accepted s objs = objs := by
  induction objs generalizing s with
  | nil => rfl
  | cons v rest ih =>
    by_cases hr : (provideOne s v).2 = .nil
    · rw [provideLoop_cons_of_nil s v rest hr] at h
      rw [accepted_cons_of_nil s v rest hr, ih _ h]
    · rw [provideLoop_cons_of_ne s v rest hr] at h
      exact absurd h hr

/-! ## `Provide` -/

theorem provideOne_heap (s : State) (a : Nat) :
    (provideOne s (some a)).1.heap = stamp s.heap a := by
  rcases provideOne_cases s a with ⟨_, _, _, he⟩ | ⟨_, _, _, _, he⟩ | ⟨_, _, _, _, he⟩ |
    ⟨_, _, _, he⟩ | ⟨_, _, _, _, he⟩ | ⟨_, _, _, _, he⟩ <;> rw [he]

theorem Provide_single (s : State) (v : Ptr) :
    Provide s [v] = provideOne { g := initPools s.g, heap := s.heap } v := by
  unfold Provide
  by_cases hr : (provideOne { g := initPools s.g, heap := s.heap } v).2 = .nil
  · rw [provideLoop_cons_of_nil _ v [] hr]
    simp only [provideLoop]
    exact Prod.ext rfl hr.symm
  · rw [provideLoop_cons_of_ne _ v [] hr]

theorem Provide_namePool_mono (s : State) (objs : List Ptr) (k : String) (p : Ptr)
    (h : s.g.namePool.get k = some p) : (Provide s objs).1.g.namePool.get k = some p := by
  unfold Provide
  apply provideLoop_namePool_mono
  rw [initPools_namePool_get]
  exact h

theorem Provide_unnamedPool_mono (s : State) (objs : List Ptr) (t : ReflectType) (p : Ptr)
    (h : s.g.unnamedPool.get t = some p) : (Provide s objs).1.g.unnamedPool.get t = some p := by
  unfold Provide
  apply provideLoop_unnamedPool_mono
  rw [initPools_unnamedPool_get]
  exact h

theorem Provide_unnamedPool_ne (s : State) (objs : List Ptr) :
    (Provide s objs).1.g.unnamedPool ≠ none :=
  provideLoop_unnamedPool_ne _ objs (initPools_unnamedPool_ne s.g)

theorem Provide_namePool_ne (s : State) (objs : List Ptr) :
    (Provide s objs).1.g.namePool ≠ none :=
  provideLoop_namePool_ne _ objs (initPools_namePool_ne s.g)

theorem Provide_startPoint (s : State) (objs : List Ptr) :
    (Provide s objs).1.g.startPoint =
      s.g.startPoint ++ accepted { g := initPools s.g, heap := s.heap } objs := by
  unfold Provide
  rw [provideLoop_startPoint]
  simp [initPools_startPoint]

theorem run_namePool_mono (s : State) (calls : List Call) (k : String) (p : Ptr)
    (h : s.g.namePool.get k = some p) : (run s calls).g.namePool.get k = some p := by
  induction calls generalizing s with
  | nil => exact h
  | cons c rest ih => exact ih _ (Provide_namePool_mono _ c.objs k p h)

theorem run_unnamedPool_mono (s : State) (calls : List Call) (t : ReflectType) (p : Ptr)
    (h : s.g.unnamedPool.get t = some p) : (run s calls).g.unnamedPool.get t = some p := by
  induction calls generalizing s with
  | nil => exact h
  | cons c rest ih => exact ih _ (Provide_unnamedPool_mono _ c.objs t p h)

theorem run_unnamedPool_ne (s : State) (calls : List Call) (h : s.g.unnamedPool ≠ none) :
    (run s calls).g.unnamedPool ≠ none := by
  induction calls generalizing s with
  | nil => exact h
  | cons c rest ih => exact ih _ (Provide_unnamedPool_ne _ c.objs)

theorem run_namePool_ne (s : State) (calls : List Call) (h : s.g.namePool ≠ none) :
    (run s calls).g.namePool ≠ none := by
  induction calls generalizing s with
  | nil => exact h
  | cons c rest ih => exact ih _ (Provide_namePool_ne _ c.objs)

/-- A successful registration of an unnamed object binds it under the type of the pointer. -/
theorem Provide_single_unnamed_bound (s : State) (a : Nat) (hn : (s.heap a).Name = "")
    (hok : (Provide s [some a]).2 = .nil) :
    (Provide s [some a]).1.g.unnamedPool.get (some objectPtrType) = some (some a) := by
  rw [Provide_single] at hok ⊢
  rcases provideOne_cases { g := initPools s.g, heap := s.heap } a with
    ⟨_, _, _, he⟩ | ⟨_, _, _, _, he⟩ | ⟨m, _, _, hset, he⟩ |
    ⟨_, hne, _, he⟩ | ⟨_, hne, _, _, he⟩ | ⟨_, hne, _, _, he⟩
  · rw [he] at hok; simp at hok
  · rw [he] at hok; simp at hok
  · rw [he]; exact GoMap.get_set_self _ _ _ _ hset
  · exact absurd hn hne
  · exact absurd hn hne
  · exact absurd hn hne

/-- A successful registration of a named object binds it under its name. -/
theorem Provide_single_named_bound (s : State) (a : Nat) (hn : (s.heap a).Name ≠ "")
    (hok : (Provide s [some a]).2 = .nil) :
    (Provide s [some a]).1.g.namePool.get (s.heap a).Name = some (some a) := by
  rw [Provide_single] at hok ⊢
  rcases provideOne_cases { g := initPools s.g, heap := s.heap } a with
    ⟨_, he0, _, he⟩ | ⟨_, he0, _, _, he⟩ | ⟨m, he0, _, hset, he⟩ |
    ⟨_, hne, _, he⟩ | ⟨_, hne, _, _, he⟩ | ⟨_, hne, _, hset, he⟩
  · exact absurd he0 hn
  · exact absurd he0 hn
  · exact absurd he0 hn
  · rw [he] at hok; simp at hok
  · rw [he] at hok; simp at hok
  · rw [he]; exact GoMap.get_set_self _ _ _ _ hset

theorem Provide_single_heap (s : State) (a : Nat) :
    (Provide s [some a]).1.heap = stamp s.heap a := by
  rw [Provide_single, provideOne_heap]

theorem Provide_single_unnamed_dup (s : State) (b : Nat) (held : Ptr)
    (hn : (s.heap b).Name = "")
    (hget : s.g.unnamedPool.get (some objectPtrType) = some held) :
    Provide s [some b] =
      ({ g := initPools s.g, heap := stamp s.heap b },
        .err (.duplicateType (some objectPtrType) held)) := by
  rw [Provide_single]
  have hget1 : (initPools s.g).unnamedPool.get (some objectPtrType) = some held := by
    rw [initPools_unnamedPool_get]; exact hget
  rcases provideOne_cases { g := initPools s.g, heap := s.heap } b with
    ⟨held1, _, hg, he⟩ | ⟨_, _, hg, _, he⟩ | ⟨m, _, hg, hset, he⟩ |
    ⟨_, hne, _, he⟩ | ⟨_, hne, _, _, he⟩ | ⟨_, hne, _, _, he⟩
  · rw [he]
    have : held1 = held := by
      have h2 := hg.symm.trans hget1
      exact Option.some.inj h2
    rw [this]
  · exact absurd (hg.symm.trans hget1) (by simp)
  · exact absurd (hg.symm.trans hget1) (by simp)
  · exact absurd hn hne
  · exact absurd hn hne
  · exact absurd hn hne

theorem Provide_single_named_dup (s : State) (b : Nat) (held : Ptr)
    (hn : (s.heap b).Name ≠ "")
    (hget : s.g.namePool.get (s.heap b).Name = some held) :
    Provide s [some b] =
      ({ g := initPools s.g, heap := stamp s.heap b },
        .err (.duplicateName (some objectPtrType) (s.heap b).Name)) := by
  rw [Provide_single]
  have hget1 : (initPools s.g).namePool.get (s.heap b).Name = some held := by
    rw [initPools_namePool_get]; exact hget
  rcases provideOne_cases { g := initPools s.g, heap := s.heap } b with
    ⟨_, he0, _, he⟩ | ⟨_, he0, _, _, he⟩ | ⟨_, he0, _, _, he⟩ |
    ⟨_, _, hg, he⟩ | ⟨_, _, hg, _, he⟩ | ⟨_, _, hg, _, he⟩
  · exact absurd he0 hn
  · exact absurd he0 hn
  · exact absurd he0 hn
  · rw [he]
  · exact absurd (hg.symm.trans hget1) (by simp)
  · exact absurd (hg.symm.trans hget1) (by simp)

theorem provideLoop_first_failure (s : State) (objs : List Ptr) (e : Error)
    (herr : (provideLoop s objs).2 = Ret.err e) :
    ∃ i, ∃ hi : i < objs.length,
      (provideLoop s (objs.take i)).2 = Ret.nil ∧
      (provideOne (provideLoop s (objs.take i)).1 (objs.get ⟨i, hi⟩)).2 = Ret.err e ∧
      (provideLoop s objs).1.g = (provideLoop s (objs.take i)).1.g := by
  induction objs generalizing s with
  | nil => simp [provideLoop] at herr
  | cons v rest ih =>
    by_cases hr : (provideOne s v).2 = .nil
    · rw [provideLoop_cons_of_nil s v rest hr] at herr
      obtain ⟨i, hi, h1, h2, h3⟩ := ih _ herr
      refine ⟨i + 1, Nat.succ_lt_succ hi, ?_, ?_, ?_⟩
      · rw [List.take_succ_cons, provideLoop_cons_of_nil s v _ hr]
        exact h1
      · rw [List.take_succ_cons, provideLoop_cons_of_nil s v _ hr]
        exact h2
      · rw [List.take_succ_cons, provideLoop_cons_of_nil s v _ hr,
          provideLoop_cons_of_nil s v _ hr]
        exact h3
    · rw [provideLoop_cons_of_ne s v rest hr] at herr
      refine ⟨0, Nat.succ_pos _, rfl, herr, ?_⟩
      rw [provideLoop_cons_of_ne s v rest hr]
      exact provideOne_g_of_ne_nil s v hr

theorem initPools_idem (g : Graph) : initPools (initPools g) = initPools g :=
  initPools_of_ne _ (initPools_unnamedPool_ne g) (initPools_namePool_ne g)

/-- An accepted argument is bound in one of the pools when the loop ends. -/
theorem accepted_bound (s : State) (objs : List Ptr) (p : Ptr) (hp : p ∈ accepted s objs) :
    (∃ k, (provideLoop s objs).1.g.namePool.get k = some p) ∨
      (∃ t, (provideLoop s objs).1.g.unnamedPool.get t = some p) := by
  induction objs generalizing s with
  | nil => simp [accepted] at hp
  | cons v rest ih =>
    by_cases hr : (provideOne s v).2 = .nil
    · rw [accepted_cons_of_nil s v rest hr] at hp
      rw [provideLoop_cons_of_nil s v rest hr]
      rcases List.mem_cons.mp hp with hpv | hrest
      · subst hpv
        cases p with
        | none => simp [provideOne_none] at hr
        | some a =>
          rcases provideOne_cases s a with ⟨_, _, _, he⟩ | ⟨_, _, _, _, he⟩ |
            ⟨m, _, _, hset, he⟩ | ⟨_, _, _, he⟩ | ⟨_, _, _, _, he⟩ | ⟨m, _, _, hset, he⟩
          · rw [he] at hr; simp at hr
          · rw [he] at hr; simp at hr
          · refine Or.inr ⟨some objectPtrType, provideLoop_unnamedPool_mono _ rest _ _ ?_⟩
            rw [he]
            exact GoMap.get_set_self _ _ _ _ hset
          · rw [he] at hr; simp at hr
          · rw [he] at hr; simp at hr
          · refine Or.inl ⟨(s.heap a).Name, provideLoop_namePool_mono _ rest _ _ ?_⟩
            rw [he]
            exact GoMap.get_set_self _ _ _ _ hset
      · exact ih _ hrest
    · rw [accepted_cons_of_ne s v rest hr] at hp
      simp at hp

theorem run_startPoint (s : State) (calls : List Call) :
    (run s calls).g.startPoint = s.g.startPoint ++ acceptedAll s calls := by
  induction calls generalizing s with
  | nil => simp [run, acceptedAll]
  | cons c rest ih =>
    rw [run, ih, acceptedAll]
    unfold callOn acceptedBy
    rw [Provide_startPoint]
    simp

theorem GoMap.set_ok_of_ne {K V : Type} [DecidableEq K] (m : GoMap K V) (k : K) (v : V)
    (h : m ≠ none) : ∃ m', m.set k v = .ok m' := by
  cases m with
  | none => exact absurd rfl h
  | some l => exact ⟨_, rfl⟩

/-- An unnamed object is registered when the type-pool has no entry for the pointer type:
the call returns nil, binds the object and leaves the name-pool bindings as they are. -/
theorem Provide_single_unnamed_ok (s : State) (a : Nat) (hn : (s.heap a).Name = "")
    (hfree : s.g.unnamedPool.get (some objectPtrType) = none) :
    (Provide s [some a]).2 = Ret.nil ∧
      (Provide s [some a]).1.g.unnamedPool.get (some objectPtrType) = some (some a) ∧
      (∀ k, (Provide s [some a]).1.g.namePool.get k = s.g.namePool.get k) := by
  have hfree1 : (initPools s.g).unnamedPool.get (some objectPtrType) = none := by
    rw [initPools_unnamedPool_get]; exact hfree
  rw [Provide_single]
  rcases provideOne_cases { g := initPools s.g, heap := s.heap } a with
    ⟨_, _, hg, he⟩ | ⟨_, _, _, hset, he⟩ | ⟨m, _, _, hset, he⟩ |
    ⟨_, hne, _, he⟩ | ⟨_, hne, _, _, he⟩ | ⟨_, hne, _, _, he⟩
  · exact absurd (hg.symm.trans hfree1) (by simp)
  · obtain ⟨m', hm'⟩ := GoMap.set_ok_of_ne (initPools s.g).unnamedPool (some objectPtrType)
      (some a) (initPools_unnamedPool_ne s.g)
    exact absurd (hset.symm.trans hm') (by simp)
  · rw [he]
    exact ⟨rfl, GoMap.get_set_self _ _ _ _ hset, fun k => initPools_namePool_get s.g k⟩
  · exact absurd hn hne
  · exact absurd hn hne
  · exact absurd hn hne

/-- A named object is registered when the name-pool has no entry for its name: the call
returns nil, binds the object and leaves the type-pool bindings as they are. -/
theorem Provide_single_named_ok (s : State) (a : Nat) (hn : (s.heap a).Name ≠ "")
    (hfree : s.g.namePool.get (s.heap a).Name = none) :
    (Provide s [some a]).2 = Ret.nil ∧
      (Provide s [some a]).1.g.namePool.get (s.heap a).Name = some (some a) ∧
      (∀ t, (Provide s [some a]).1.g.unnamedPool.get t = s.g.unnamedPool.get t) := by
  have hfree1 : (initPools s.g).namePool.get (s.heap a).Name = none := by
    rw [initPools_namePool_get]; exact hfree
  rw [Provide_single]
  rcases provideOne_cases { g := initPools s.g, heap := s.heap } a with
    ⟨_, he0, _, he⟩ | ⟨_, he0, _, _, he⟩ | ⟨_, he0, _, _, he⟩ |
    ⟨_, _, hg, he⟩ | ⟨_, _, _, hset, he⟩ | ⟨m, _, _, hset, he⟩
  · exact absurd he0 hn
  · exact absurd he0 hn
  · exact absurd he0 hn
  · exact absurd (hg.symm.trans hfree1) (by simp)
  · obtain ⟨m', hm'⟩ := GoMap.set_ok_of_ne (initPools s.g).namePool (s.heap a).Name
      (some a) (initPools_namePool_ne s.g)
    exact absurd (hset.symm.trans hm') (by simp)
  · rw [he]
    exact ⟨rfl, GoMap.get_set_self _ _ _ _ hset, fun t => initPools_unnamedPool_get s.g t⟩

/-! ## The logger -/

theorem initPools_withLogger (g : Graph) (l : Option Nat) :
    initPools (withLogger g l) = withLogger (initPools g) l := by
  unfold initPools withLogger
  by_cases h1 : g.unnamedPool = none <;> by_cases h2 : g.namePool = none <;> simp [h1, h2]

theorem provideOne_withLogger (g : Graph) (heap : Heap) (l : Option Nat) (v : Ptr) :
    provideOne { g := withLogger g l, heap := heap } v =
      ({ g := withLogger (provideOne { g := g, heap := heap } v).1.g l,
         heap := (provideOne { g := g, heap := heap } v).1.heap },
        (provideOne { g := g, heap := heap } v).2) := by
  cases v with
  | none => rfl
  | some a =>
    rcases provideOne_cases { g := g, heap := heap } a with
      ⟨held, hn, hg, he⟩ | ⟨msg, hn, hg, hset, he⟩ | ⟨m, hn, hg, hset, he⟩ |
      ⟨held, hn, hg, he⟩ | ⟨msg, hn, hg, hset, he⟩ | ⟨m, hn, hg, hset, he⟩ <;>
    · rw [he, provideOne_some]
      simp only [withLogger] at *
      first
        | simp [hn, hg, hset]
        | simp [hn, hg]

theorem provideLoop_withLogger (g : Graph) (heap : Heap) (l : Option Nat) (objs : List Ptr) :
    provideLoop { g := withLogger g l, heap := heap } objs =
      ({ g := withLogger (provideLoop { g := g, heap := heap } objs).1.g l,
         heap := (provideLoop { g := g, heap := heap } objs).1.heap },
        (provideLoop { g := g, heap := heap } objs).2) := by
  induction objs generalizing g heap with
  | nil => rfl
  | cons v rest ih =>
    by_cases hr : (provideOne { g := g, heap := heap } v).2 = .nil
    · have hr2 : (provideOne { g := withLogger g l, heap := heap } v).2 = .nil := by
        rw [provideOne_withLogger]; exact hr
      rw [provideLoop_cons_of_nil _ v rest hr, provideLoop_cons_of_nil _ v rest hr2,
        provideOne_withLogger]
      exact ih _ _
    · have hr2 : (provideOne { g := withLogger g l, heap := heap } v).2 ≠ .nil := by
        rw [provideOne_withLogger]; exact hr
      rw [provideLoop_cons_of_ne _ v rest hr, provideLoop_cons_of_ne _ v rest hr2,
        provideOne_withLogger]

theorem Provide_withLogger (g : Graph) (heap : Heap) (l : Option Nat) (objs : List Ptr) :
    Provide { g := withLogger g l, heap := heap } objs =
      ({ g := withLogger (Provide { g := g, heap := heap } objs).1.g l,
         heap := (Provide { g := g, heap := heap } objs).1.heap },
        (Provide { g := g, heap := heap } objs).2) := by
  unfold Provide
  simp only [initPools_withLogger]
  exact provideLoop_withLogger _ _ _ _

/-! ## Frame lemmas -/

theorem initPools_eq_orEmpty (g : Graph) :
    initPools g =
      { g with namePool := orEmpty g.namePool, unnamedPool := orEmpty g.unnamedPool } := by
  obtain ⟨lg, sp, np, up⟩ := g
  cases up <;> cases np <;> simp [initPools, orEmpty]

theorem orEmpty_get {K V : Type} [DecidableEq K] (m : GoMap K V) (k : K) :
    (orEmpty m).get k = m.get k := by
  cases m <;> rfl

theorem orEmpty_len {K V : Type} (m : GoMap K V) : (orEmpty m).len = m.len := by
  cases m <;> rfl

theorem GoMap.len_set {K V : Type} [DecidableEq K] (m m' : GoMap K V) (k : K) (v : V)
    (hfree : m.get k = none) (hset : m.set k v = .ok m') : m'.len = m.len + 1 := by
  cases m with
  | none => simp [GoMap.set] at hset
  | some l =>
    simp only [GoMap.set, Except.ok.injEq] at hset
    subst hset
    simp only [GoMap.get] at hfree
    simp [GoMap.len, assign_of_lookup_none k v l hfree]

theorem GoMap.get_set_other {K V : Type} [DecidableEq K] (m m' : GoMap K V) (k k' : K) (v : V)
    (hset : m.set k v = .ok m') (hne : k ≠ k') : m'.get k' = m.get k' := by
  cases m with
  | none => simp [GoMap.set] at hset
  | some l =>
    simp only [GoMap.set, Except.ok.injEq] at hset
    subst hset
    simp only [GoMap.get]
    exact lookup_assign_other k k' v l hne

theorem stamp_Value (h : Heap) (a b : Nat) : (stamp h a b).Value = (h b).Value := by
  unfold stamp
  by_cases hb : b = a
  · subst hb; simp
  · simp [Function.update_noteq hb]

theorem stamp_complete (h : Heap) (a b : Nat) : (stamp h a b).complete = (h b).complete := by
  unfold stamp
  by_cases hb : b = a
  · subst hb; simp
  · simp [Function.update_noteq hb]

theorem stamp_of_ne (h : Heap) (a b : Nat) (hb : b ≠ a) : stamp h a b = h b := by
  simp [stamp, Function.update_noteq hb]

theorem stamp_t_self (h : Heap) (a : Nat) : (stamp h a a).t = structPointer := by
  simp [stamp]

theorem provideOne_heap_owned (s : State) (v : Ptr) (b : Nat) :
    ((provideOne s v).1.heap b).Value = (s.heap b).Value ∧
      ((provideOne s v).1.heap b).Name = (s.heap b).Name ∧
      ((provideOne s v).1.heap b).complete = (s.heap b).complete := by
  cases v with
  | none => exact ⟨rfl, rfl, rfl⟩
  | some a =>
    rw [provideOne_heap]
    exact ⟨stamp_Value _ _ _, stamp_Name _ _ _, stamp_complete _ _ _⟩

theorem provideLoop_heap_owned (s : State) (objs : List Ptr) (b : Nat) :
    ((provideLoop s objs).1.heap b).Value = (s.heap b).Value ∧
      ((provideLoop s objs).1.heap b).Name = (s.heap b).Name ∧
      ((provideLoop s objs).1.heap b).complete = (s.heap b).complete := by
  induction objs generalizing s with
  | nil => exact ⟨rfl, rfl, rfl⟩
  | cons v rest ih =>
    obtain ⟨h1, h2, h3⟩ := provideOne_heap_owned s v b
    by_cases hr : (provideOne s v).2 = .nil
    · rw [provideLoop_cons_of_nil s v rest hr]
      obtain ⟨k1, k2, k3⟩ := ih (provideOne s v).1
      exact ⟨k1.trans h1, k2.trans h2, k3.trans h3⟩
    · rw [provideLoop_cons_of_ne s v rest hr]
      exact ⟨h1, h2, h3⟩

/-- With both maps present the loop body panics only on a nil pointer. -/
theorem provideOne_panic (s : State) (v : Ptr) (msg : String)
    (hu : s.g.unnamedPool ≠ none) (hnp : s.g.namePool ≠ none)
    (hp : (provideOne s v).2 = .panic msg) : v = none ∧ msg = nilDeref := by
  cases v with
  | none =>
    rw [provideOne_none] at hp
    simp only [Ret.panic.injEq] at hp
    exact ⟨rfl, hp.symm⟩
  | some a =>
    rcases provideOne_cases s a with ⟨_, _, _, he⟩ | ⟨_, _, _, hset, he⟩ | ⟨_, _, _, _, he⟩ |
      ⟨_, _, _, he⟩ | ⟨_, _, _, hset, he⟩ | ⟨_, _, _, _, he⟩
    · rw [he] at hp; simp at hp
    · obtain ⟨m', hm'⟩ := GoMap.set_ok_of_ne s.g.unnamedPool (some objectPtrType) (some a) hu
      exact absurd (hset.symm.trans hm') (by simp)
    · rw [he] at hp; simp at hp
    · rw [he] at hp; simp at hp
    · obtain ⟨m', hm'⟩ := GoMap.set_ok_of_ne s.g.namePool (s.heap a).Name (some a) hnp
      exact absurd (hset.symm.trans hm') (by simp)
    · rw [he] at hp; simp at hp

theorem provideLoop_panic (s : State) (objs : List Ptr) (msg : String)
    (hu : s.g.unnamedPool ≠ none) (hnp : s.g.namePool ≠ none)
    (hp : (provideLoop s objs).2 = .panic msg) : none ∈ objs ∧ msg = nilDeref := by
  induction objs generalizing s with
  | nil => simp [provideLoop] at hp
  | cons v rest ih =>
    by_cases hr : (provideOne s v).2 = .nil
    · rw [provideLoop_cons_of_nil s v rest hr] at hp
      obtain ⟨h1, h2⟩ := ih _ (provideOne_unnamedPool_ne s v hu) (provideOne_namePool_ne s v hnp) hp
      exact ⟨List.mem_cons_of_mem _ h1, h2⟩
    · rw [provideLoop_cons_of_ne s v rest hr] at hp
      obtain ⟨h1, h2⟩ := provideOne_panic s v msg hu hnp hp
      exact ⟨by rw [h1]; exact List.mem_cons_self _ _, h2⟩

theorem provideLoop_heap_of_not_mem (s : State) (objs : List Ptr) (b : Nat)
    (hb : some b ∉ objs) : (provideLoop s objs).1.heap b = s.heap b := by
  induction objs generalizing s with
  | nil => rfl
  | cons v rest ih =>
    have hv : v ≠ some b := fun h => hb (by rw [h]; exact List.mem_cons_self _ _)
    have hrest : some b ∉ rest := fun h => hb (List.mem_cons_of_mem _ h)
    have hone : (provideOne s v).1.heap b = s.heap b := by
      cases v with
      | none => rfl
      | some a =>
        rw [provideOne_heap]
        exact stamp_of_ne _ _ _ (fun h => hv (by rw [h]))
    by_cases hr : (provideOne s v).2 = .nil
    · rw [provideLoop_cons_of_nil s v rest hr, ih _ hrest, hone]
    · rw [provideLoop_cons_of_ne s v rest hr, hone]

theorem initPools_namePool_len (g : Graph) : (initPools g).namePool.len = g.namePool.len := by
  rw [initPools_eq_orEmpty]
  exact orEmpty_len _

theorem initPools_unnamedPool_len (g : Graph) :
    (initPools g).unnamedPool.len = g.unnamedPool.len := by
  rw [initPools_eq_orEmpty]
  exact orEmpty_len _

/-! ## The invariant -/

theorem lookup_none_not_mem {K V : Type} [DecidableEq K] (k : K) (l : List (K × V))
    (h : lookup k l = none) : k ∉ l.map Prod.fst := by
  induction l with
  | nil => simp
  | cons hd tl ih =>
    obtain ⟨k1, v1⟩ := hd
    by_cases hk : k1 = k
    · simp [lookup, hk] at h
    · simp only [lookup, hk, if_false] at h
      simp only [List.map_cons, List.mem_cons, not_or]
      exact ⟨fun e => hk e.symm, ih h⟩

theorem GoMap.keys_set {K V : Type} [DecidableEq K] (m m' : GoMap K V) (k : K) (v : V)
    (hfree : m.get k = none) (hset : m.set k v = .ok m') : m'.keys = m.keys ++ [k] := by
  cases m with
  | none => simp [GoMap.set] at hset
  | some l =>
    simp only [GoMap.set, Except.ok.injEq] at hset
    subst hset
    simp only [GoMap.get] at hfree
    simp [GoMap.keys, assign_of_lookup_none k v l hfree]

theorem GoMap.not_mem_keys {K V : Type} [DecidableEq K] (m : GoMap K V) (k : K)
    (hfree : m.get k = none) : k ∉ m.keys := by
  cases m with
  | none => simp [GoMap.keys]
  | some l => exact lookup_none_not_mem k l hfree

theorem GoMap.len_eq_keys {K V : Type} (m : GoMap K V) : m.len = m.keys.length := by
  cases m <;> simp [GoMap.len, GoMap.keys]

theorem GoMap.get_of_len_zero {K V : Type} [DecidableEq K] (m : GoMap K V) (k : K)
    (h : m.len = 0) : m.get k = none := by
  cases m with
  | none => rfl
  | some l =>
    simp only [GoMap.len, List.length_eq_zero] at h
    subst h
    rfl

theorem GoMap.set_of_len_zero {K V : Type} [DecidableEq K] (m m' : GoMap K V) (k : K) (v : V)
    (h : m.len = 0) (hset : m.set k v = .ok m') : m' = some [(k, v)] := by
  cases m with
  | none => simp [GoMap.set] at hset
  | some l =>
    simp only [GoMap.len, List.length_eq_zero] at h
    subst h
    simp only [GoMap.set, Except.ok.injEq] at hset
    subst hset
    rfl

theorem orEmpty_keys {K V : Type} (m : GoMap K V) : (orEmpty m).keys = m.keys := by
  cases m <;> rfl

/-- The writes of the loop body to an object keep the invariant. -/
theorem Inv_stamp (g : Graph) (h : Heap) (a : Nat) (inv : Inv { g := g, heap := h }) :
    Inv { g := g, heap := stamp h a } := by
  have hkind : ∀ b, (h b).t = structPointer → (stamp h a b).t = structPointer := by
    intro b hb
    by_cases hba : b = a
    · subst hba; exact stamp_t_self _ _
    · rw [stamp_of_ne _ _ _ hba]; exact hb
  have htype : ∀ b, (h b).reflectType = some objectPtrType →
      (stamp h a b).reflectType = some objectPtrType := by
    intro b hb
    by_cases hba : b = a
    · subst hba; exact stamp_reflectType_self _ _
    · rw [stamp_of_ne _ _ _ hba]; exact hb
  refine ⟨?_, ?_, ?_, inv.length, inv.single, inv.nameKeys⟩
  · intro p hp
    obtain ⟨b, hb, ht, hr, hcase⟩ := inv.start p hp
    refine ⟨b, hb, hkind b ht, htype b hr, ?_⟩
    simp only [stamp_Name]
    exact hcase
  · intro k p hk
    obtain ⟨h1, b, hb, hn, hne⟩ := inv.named k p hk
    exact ⟨h1, b, hb, by simp only [stamp_Name]; exact hn, hne⟩
  · intro t p ht
    obtain ⟨h1, h2, b, hb, hn⟩ := inv.unnamed t p ht
    exact ⟨h1, h2, b, hb, by simp only [stamp_Name]; exact hn⟩

theorem Inv_initPools (g : Graph) (h : Heap) (inv : Inv { g := g, heap := h }) :
    Inv { g := initPools g, heap := h } := by
  refine ⟨?_, ?_, ?_, ?_, ?_, ?_⟩
  · intro p hp
    simp only [initPools_startPoint] at hp
    simp only [initPools_unnamedPool_get, initPools_namePool_get]
    exact inv.start p hp
  · intro k p hk
    simp only [initPools_namePool_get] at hk
    simp only [initPools_startPoint]
    exact inv.named k p hk
  · intro t p ht
    simp only [initPools_unnamedPool_get] at ht
    simp only [initPools_startPoint]
    exact inv.unnamed t p ht
  · simp only [initPools_startPoint, initPools_namePool_len, initPools_unnamedPool_len]
    exact inv.length
  · rcases inv.single with h0 | ⟨p, hp⟩
    · left
      simp only [initPools_unnamedPool_len]
      exact h0
    · right
      refine ⟨p, ?_⟩
      rw [initPools_eq_orEmpty]
      show orEmpty g.unnamedPool = _
      have hp' : g.unnamedPool = some [(some objectPtrType, p)] := hp
      rw [hp']
      rfl
  · rw [initPools_eq_orEmpty]
    show (orEmpty g.namePool).keys.Nodup
    rw [orEmpty_keys]
    exact inv.nameKeys

theorem Inv_insert_unnamed (g : Graph) (h : Heap) (a : Nat) (m : GoMap ReflectType Ptr)
    (inv : Inv { g := g, heap := h })
    (hn : (h a).Name = "") (ht : (h a).t = structPointer)
    (hr : (h a).reflectType = some objectPtrType)
    (hfree : g.unnamedPool.get (some objectPtrType) = none)
    (hset : g.unnamedPool.set (some objectPtrType) (some a) = .ok m) :
    Inv { g := { g with unnamedPool := m, startPoint := g.startPoint ++ [some a] },
          heap := h } := by
  have hself : m.get (some objectPtrType) = some (some a) := GoMap.get_set_self _ _ _ _ hset
  have hlen0 : g.unnamedPool.len = 0 := by
    rcases inv.single with h0 | ⟨p, hp⟩
    · exact h0
    · have hp' : g.unnamedPool = some [(some objectPtrType, p)] := hp
      rw [hp'] at hfree
      simp [GoMap.get, lookup] at hfree
  refine ⟨?_, ?_, ?_, ?_, ?_, inv.nameKeys⟩
  · intro p hp
    rcases List.mem_append.mp hp with hold | hnew
    · obtain ⟨b, hb, hbt, hbr, hcase⟩ := inv.start p hold
      refine ⟨b, hb, hbt, hbr, ?_⟩
      rcases hcase with ⟨_, hu⟩ | hnamed
      · have hu' : g.unnamedPool.get (some objectPtrType) = some p := hu
        rw [hfree] at hu'
        exact absurd hu' (by simp)
      · exact Or.inr hnamed
    · have hpa : p = some a := by simpa using hnew
      exact ⟨a, hpa, ht, hr, Or.inl ⟨hn, by rw [hpa]; exact hself⟩⟩
  · intro k p hk
    obtain ⟨h1, rest⟩ := inv.named k p hk
    exact ⟨List.mem_append_left _ h1, rest⟩
  · intro t p htp
    have htp' : m.get t = some p := htp
    by_cases hkey : t = some objectPtrType
    · subst hkey
      rw [hself] at htp'
      have hpa : p = some a := (Option.some.inj htp').symm
      exact ⟨List.mem_append_right _ (by simp [hpa]), rfl, a, hpa, hn⟩
    · rw [GoMap.get_set_other _ _ _ t _ hset (fun e => hkey e.symm)] at htp'
      exact absurd (inv.unnamed t p htp').2.1 hkey
  · show (g.startPoint ++ [some a]).length = g.namePool.len + m.len
    rw [GoMap.len_set _ _ _ _ hfree hset, List.length_append, inv.length]
    simp [Nat.add_assoc]
  · right
    exact ⟨some a, GoMap.set_of_len_zero _ _ _ _ hlen0 hset⟩

theorem Inv_insert_named (g : Graph) (h : Heap) (a : Nat) (m : GoMap String Ptr)
    (inv : Inv { g := g, heap := h })
    (hn : (h a).Name ≠ "") (ht : (h a).t = structPointer)
    (hr : (h a).reflectType = some objectPtrType)
    (hfree : g.namePool.get (h a).Name = none)
    (hset : g.namePool.set (h a).Name (some a) = .ok m) :
    Inv { g := { g with namePool := m, startPoint := g.startPoint ++ [some a] },
          heap := h } := by
  have hself : m.get (h a).Name = some (some a) := GoMap.get_set_self _ _ _ _ hset
  refine ⟨?_, ?_, ?_, ?_, inv.single, ?_⟩
  · intro p hp
    rcases List.mem_append.mp hp with hold | hnew
    · obtain ⟨b, hb, hbt, hbr, hcase⟩ := inv.start p hold
      refine ⟨b, hb, hbt, hbr, ?_⟩
      rcases hcase with hunnamed | ⟨hbn, hk⟩
      · exact Or.inl hunnamed
      · exact Or.inr ⟨hbn, GoMap.get_set_mono _ _ _ _ _ _ hfree hset hk⟩
    · have hpa : p = some a := by simpa using hnew
      exact ⟨a, hpa, ht, hr, Or.inr ⟨hn, by rw [hpa]; exact hself⟩⟩
  · intro k p hk
    have hk' : m.get k = some p := hk
    by_cases hkey : k = (h a).Name
    · subst hkey
      rw [hself] at hk'
      have hpa : p = some a := (Option.some.inj hk').symm
      exact ⟨List.mem_append_right _ (by simp [hpa]), a, hpa, rfl, hn⟩
    · rw [GoMap.get_set_other _ _ _ k _ hset (fun e => hkey e.symm)] at hk'
      obtain ⟨h1, rest⟩ := inv.named k p hk'
      exact ⟨List.mem_append_left _ h1, rest⟩
  · intro t p htp
    obtain ⟨h1, rest⟩ := inv.unnamed t p htp
    exact ⟨List.mem_append_left _ h1, rest⟩
  · show (g.startPoint ++ [some a]).length = m.len + g.unnamedPool.len
    rw [GoMap.len_set _ _ _ _ hfree hset, List.length_append, inv.length]
    simp only [List.length_singleton]
    omega
  · show m.keys.Nodup
    rw [GoMap.keys_set _ _ _ _ hfree hset]
    have hnot := GoMap.not_mem_keys _ _ hfree
    have hnd : g.namePool.keys.Nodup := inv.nameKeys
    rw [List.nodup_append]
    refine ⟨hnd, List.nodup_singleton _, ?_⟩
    intro x hx hx'
    have : x = (h a).Name := by simpa using hx'
    exact hnot (this ▸ hx)

theorem Inv_provideOne (s : State) (v : Ptr) (inv : Inv s) : Inv (provideOne s v).1 := by
  cases v with
  | none => exact inv
  | some a =>
    have inv1 : Inv { g := s.g, heap := stamp s.heap a } := Inv_stamp s.g s.heap a inv
    rcases provideOne_cases s a with ⟨_, _, _, he⟩ | ⟨_, _, _, _, he⟩ | ⟨m, hn, hfree, hset, he⟩ |
      ⟨_, _, _, he⟩ | ⟨_, _, _, _, he⟩ | ⟨m, hn, hfree, hset, he⟩
    · rw [he]; exact inv1
    · rw [he]; exact inv1
    · rw [he]
      exact Inv_insert_unnamed s.g (stamp s.heap a) a m inv1 (by rw [stamp_Name]; exact hn)
        (stamp_t_self _ _) (stamp_reflectType_self _ _) hfree hset
    · rw [he]; exact inv1
    · rw [he]; exact inv1
    · rw [he]
      exact Inv_insert_named s.g (stamp s.heap a) a m inv1 (by rw [stamp_Name]; exact hn)
        (stamp_t_self _ _) (stamp_reflectType_self _ _) (by rw [stamp_Name]; exact hfree)
        (by rw [stamp_Name]; exact hset)

theorem Inv_provideLoop (s : State) (objs : List Ptr) (inv : Inv s) :
    Inv (provideLoop s objs).1 := by
  induction objs generalizing s with
  | nil => exact inv
  | cons v rest ih =>
    by_cases hr : (provideOne s v).2 = .nil
    · rw [provideLoop_cons_of_nil s v rest hr]
      exact ih _ (Inv_provideOne s v inv)
    · rw [provideLoop_cons_of_ne s v rest hr]
      exact Inv_provideOne s v inv

theorem Inv_Provide (s : State) (objs : List Ptr) (inv : Inv s) : Inv (Provide s objs).1 :=
  Inv_provideLoop _ objs (Inv_initPools s.g s.heap inv)

theorem Inv_of_empty (g : Graph) (heap : Heap) (hempty : IsEmptyGraph g) :
    Inv { g := g, heap := heap } := by
  obtain ⟨hsp, hnl, hul⟩ := hempty
  refine ⟨?_, ?_, ?_, ?_, Or.inl hul, ?_⟩
  · intro p hp
    have hp' : p ∈ g.startPoint := hp
    rw [hsp] at hp'
    simp at hp'
  · intro k p hk
    have hk' : g.namePool.get k = some p := hk
    rw [GoMap.get_of_len_zero _ k hnl] at hk'
    exact absurd hk' (by simp)
  · intro t p ht
    have ht' : g.unnamedPool.get t = some p := ht
    rw [GoMap.get_of_len_zero _ t hul] at ht'
    exact absurd ht' (by simp)
  · show g.startPoint.length = g.namePool.len + g.unnamedPool.len
    rw [hsp, hnl, hul]
    rfl
  · show g.namePool.keys.Nodup
    have hk : g.namePool.keys.length = 0 := by rw [← GoMap.len_eq_keys]; exact hnl
    rw [List.length_eq_zero.mp hk]
    exact List.nodup_nil

theorem Inv_of_reachable (s : State) (hr : Reachable s) : Inv s := by
  induction hr with
  | init g heap hempty => exact Inv_of_empty g heap hempty
  | provide s objs _ ih => exact Inv_Provide s objs ih
  | edit s heap _ kept ih =>
    have hstart : ∀ p ∈ s.g.startPoint, ∀ a, p = some a → heap a = s.heap a := by
      intro p hp a hpa
      exact kept a (Or.inl (hpa ▸ hp))
    refine ⟨?_, ?_, ?_, ih.length, ih.single, ih.nameKeys⟩
    · intro p hp
      obtain ⟨b, hb, ht, hrt, hcase⟩ := ih.start p hp
      have hkeep : heap b = s.heap b := hstart p hp b hb
      refine ⟨b, hb, ?_, ?_, ?_⟩
      · show (heap b).t = structPointer
        rw [hkeep]; exact ht
      · show (heap b).reflectType = some objectPtrType
        rw [hkeep]; exact hrt
      · show ((heap b).Name = "" ∧ _) ∨ ((heap b).Name ≠ "" ∧ s.g.namePool.get (heap b).Name = _)
        rw [hkeep]; exact hcase
    · intro k p hk
      obtain ⟨h1, b, hb, hn, hne⟩ := ih.named k p hk
      refine ⟨h1, b, hb, ?_, hne⟩
      show (heap b).Name = k
      rw [hstart p h1 b hb]; exact hn
    · intro t p ht
      obtain ⟨h1, h2, b, hb, hn⟩ := ih.unnamed t p ht
      refine ⟨h1, h2, b, hb, ?_⟩
      show (heap b).Name = ""
      rw [hstart p h1 b hb]; exact hn

theorem isCorrectType_of_pointer (h : Heap) (a : Nat) :
    isCorrectType h (some a) (TypeOf (ptrToAny (some a))) =
      (Function.update h a { h a with t := structPointer }, Ret.nil) := rfl

theorem provideOne_not_unsupported (s : State) (v : Ptr) (t : ReflectType) (x : AnyValue) :
    (provideOne s v).2 ≠ Ret.err (Error.unsupportedType t x) := by
  cases v with
  | none => simp [provideOne_none]
  | some a =>
    rcases provideOne_cases s a with ⟨_, _, _, he⟩ | ⟨_, _, _, _, he⟩ | ⟨_, _, _, _, he⟩ |
      ⟨_, _, _, he⟩ | ⟨_, _, _, _, he⟩ | ⟨_, _, _, _, he⟩ <;> rw [he] <;> simp

theorem provideLoop_not_unsupported (s : State) (objs : List Ptr) (t : ReflectType)
    (x : AnyValue) : (provideLoop s objs).2 ≠ Ret.err (Error.unsupportedType t x) := by
  induction objs generalizing s with
  | nil => simp [provideLoop]
  | cons v rest ih =>
    by_cases hr : (provideOne s v).2 = .nil
    · rw [provideLoop_cons_of_nil s v rest hr]
      exact ih _
    · rw [provideLoop_cons_of_ne s v rest hr]
      exact provideOne_not_unsupported s v t x

theorem Inv_holds_start (s : State) (inv : Inv s) (p : Ptr) (hp : Holds s.g p) :
    p ∈ s.g.startPoint := by
  rcases hp with h1 | ⟨k, hk⟩ | ⟨t, ht⟩
  · exact h1
  · exact (inv.named k p hk).1
  · exact (inv.unnamed t p ht).1

/-- The example state after the unnamed `*Foo` object 0 and the `*Foo` object 2 named
"alt" have been provided is reachable. -/
theorem demo_reachable : Reachable (Provide demoState [some 0, some 2]).1 :=
  Reachable.provide demoState [some 0, some 2]
    (Reachable.init emptyGraph demoHeap ⟨rfl, rfl, rfl⟩)

/-- When the name-pool has no entry for the (non-empty) name of `n` and the type-pool has
no entry for the type of the pointer, the unnamed `u` and the named `n` are both
registered, in either order: the type-pool then holds `u` under the reflected type attached
to it and the name-pool holds `n` under its name. -/
theorem Provide_named_and_unnamed (s : State) (u n : Nat)
    (hu : (s.heap u).Name = "") (hn : (s.heap n).Name ≠ "")
    (hfreeName : s.g.namePool.get (s.heap n).Name = none)
    (hfreeType : s.g.unnamedPool.get (TypeOf (ptrToAny (some u))) = none) :
    ((Provide s [some u]).2 = Ret.nil ∧
        (Provide (Provide s [some u]).1 [some n]).2 = Ret.nil ∧
        (Provide (Provide s [some u]).1 [some n]).1.g.unnamedPool.get
            ((Provide (Provide s [some u]).1 [some n]).1.heap u).reflectType = some (some u) ∧
        (Provide (Provide s [some u]).1 [some n]).1.g.namePool.get (s.heap n).Name =
          some (some n)) ∧
      ((Provide s [some n]).2 = Ret.nil ∧
        (Provide (Provide s [some n]).1 [some u]).2 = Ret.nil ∧
        (Provide (Provide s [some n]).1 [some u]).1.g.unnamedPool.get
            ((Provide (Provide s [some n]).1 [some u]).1.heap u).reflectType = some (some u) ∧
        (Provide (Provide s [some n]).1 [some u]).1.g.namePool.get (s.heap n).Name =
          some (some n)) := by
  have hty : TypeOf (ptrToAny (some u)) = some objectPtrType := rfl
  rw [hty] at hfreeType
  have hne : u ≠ n := by
    intro h
    subst h
    exact hn hu
  constructor
  · obtain ⟨h1, h2, h3⟩ := Provide_single_unnamed_ok s u hu hfreeType
    have hname : ((Provide s [some u]).1.heap n).Name = (s.heap n).Name := by
      rw [Provide_single_heap, stamp_Name]
    have hn1 : ((Provide s [some u]).1.heap n).Name ≠ "" := by rw [hname]; exact hn
    have hfree1 : (Provide s [some u]).1.g.namePool.get
        ((Provide s [some u]).1.heap n).Name = none := by
      rw [hname, h3]; exact hfreeName
    obtain ⟨k1, k2, k3⟩ := Provide_single_named_ok (Provide s [some u]).1 n hn1 hfree1
    refine ⟨h1, k1, ?_, ?_⟩
    · have hrt : ((Provide (Provide s [some u]).1 [some n]).1.heap u).reflectType =
          some objectPtrType := by
        rw [Provide_single_heap, Provide_single_heap]
        simp [stamp, Function.update_noteq hne]
      rw [hrt, k3]
      exact h2
    · rw [← hname]
      exact k2
  · obtain ⟨h1, h2, h3⟩ := Provide_single_named_ok s n hn hfreeName
    have hname : ((Provide s [some n]).1.heap u).Name = "" := by
      rw [Provide_single_heap, stamp_Name]; exact hu
    have hfree1 : (Provide s [some n]).1.g.unnamedPool.get (some objectPtrType) = none := by
      rw [h3]; exact hfreeType
    obtain ⟨k1, k2, k3⟩ := Provide_single_unnamed_ok (Provide s [some n]).1 u hname hfree1
    refine ⟨h1, k1, ?_, ?_⟩
    · have hrt : ((Provide (Provide s [some n]).1 [some u]).1.heap u).reflectType =
          some objectPtrType := by
        rw [Provide_single_heap, stamp_reflectType_self]
      rw [hrt]
      exact k2
    · rw [k3]
      exact h2

/-! ## The claims -/

/-- C1. Uniqueness of unnamed objects: when `Provide(A)` has succeeded for an object `A`
with empty `Name`, every later `Provide(B)` of an object `B` with empty `Name` (after any
further calls and any edits of the objects by the caller) returns the duplicate-type error,
which names the reflected type attached to `B` (the one attached to `A`) and the holder `A`;
afterwards the type-pool entry for that type is still `A`, and the rejected call leaves both
pools and start-points as they were, so `B` is in none of them unless it was before. -/
theorem Provide_unnamed_duplicate (s : State) (A B : Nat) (calls : List Call)
    (edit : Heap → Heap)
    (hA : (s.heap A).Name = "")
    (hok : (Provide s [some A]).2 = Ret.nil)
    (hB : (edit (run (Provide s [some A]).1 calls).heap B).Name = "") :
    (callOn (run (Provide s [some A]).1 calls) { edit := edit, objs := [some B] }).2 =
        Ret.err (Error.duplicateType (TypeOf (ptrToAny (some B))) (some A)) ∧
      TypeOf (ptrToAny (some B)) = ((Provide s [some A]).1.heap A).reflectType ∧
      (callOn (run (Provide s [some A]).1 calls)
          { edit := edit, objs := [some B] }).1.g.unnamedPool.get
        (TypeOf (ptrToAny (some B))) = some (some A) ∧
      (callOn (run (Provide s [some A]).1 calls) { edit := edit, objs := [some B] }).1.g =
        (run (Provide s [some A]).1 calls).g ∧
      (¬ Holds (run (Provide s [some A]).1 calls).g (some B) →
        ¬ Holds (callOn (run (Provide s [some A]).1 calls)
          { edit := edit, objs := [some B] }).1.g (some B)) := by
  have hty : TypeOf (ptrToAny (some B)) = some objectPtrType := rfl
  have hb1 := Provide_single_unnamed_bound s A hA hok
  have hb2 := run_unnamedPool_mono _ calls _ _ hb1
  have hu := run_unnamedPool_ne _ calls (Provide_unnamedPool_ne s [some A])
  have hnp := run_namePool_ne _ calls (Provide_namePool_ne s [some A])
  have hcall : callOn (run (Provide s [some A]).1 calls) { edit := edit, objs := [some B] } =
      ({ g := (run (Provide s [some A]).1 calls).g,
         heap := stamp (edit (run (Provide s [some A]).1 calls).heap) B },
        .err (.duplicateType (some objectPtrType) (some A))) := by
    show Provide { g := (run (Provide s [some A]).1 calls).g,
                   heap := edit (run (Provide s [some A]).1 calls).heap } [some B] = _
    rw [Provide_single_unnamed_dup
      { g := (run (Provide s [some A]).1 calls).g,
        heap := edit (run (Provide s [some A]).1 calls).heap } B (some A) hB hb2]
    simp only [initPools_of_ne _ hu hnp]
  rw [hcall, hty]
  refine ⟨rfl, ?_, hb2, rfl, fun h => h⟩
  rw [Provide_single_heap, stamp_reflectType_self]

/-- C1, at a concrete input: two unnamed `*Foo` objects on the empty graph. -/
theorem Provide_unnamed_duplicate_witness :
    (callOn (run (Provide demoState [some 0]).1 []) { edit := id, objs := [some 6] }).2 =
        Ret.err (Error.duplicateType (some objectPtrType) (some 0)) ∧
      (callOn (run (Provide demoState [some 0]).1 [])
          { edit := id, objs := [some 6] }).1.g.unnamedPool.get (some objectPtrType) =
        some (some 0) :=
  ⟨(Provide_unnamed_duplicate demoState 0 6 [] id rfl rfl rfl).1,
   (Provide_unnamed_duplicate demoState 0 6 [] id rfl rfl rfl).2.2.1⟩

/-- C2. Uniqueness of names: when `Provide(A)` has succeeded for an object `A` with a
non-empty `Name`, every later `Provide(B)` of an object `B` with the same `Name` (after any
further calls and any edits of the objects by the caller, whatever the two values are)
returns the duplicate-name error, and the name-pool entry for that name is still `A`. -/
theorem Provide_name_duplicate (s : State) (A B : Nat) (calls : List Call)
    (edit : Heap → Heap)
    (hA : (s.heap A).Name ≠ "")
    (hok : (Provide s [some A]).2 = Ret.nil)
    (hB : (edit (run (Provide s [some A]).1 calls).heap B).Name = (s.heap A).Name) :
    (callOn (run (Provide s [some A]).1 calls) { edit := edit, objs := [some B] }).2 =
        Ret.err (Error.duplicateName (TypeOf (ptrToAny (some B))) (s.heap A).Name) ∧
      (callOn (run (Provide s [some A]).1 calls)
          { edit := edit, objs := [some B] }).1.g.namePool.get (s.heap A).Name =
        some (some A) ∧
      (callOn (run (Provide s [some A]).1 calls) { edit := edit, objs := [some B] }).1.g =
        (run (Provide s [some A]).1 calls).g := by
  have hty : TypeOf (ptrToAny (some B)) = some objectPtrType := rfl
  have hb1 := Provide_single_named_bound s A hA hok
  have hb2 := run_namePool_mono _ calls _ _ hb1
  have hu := run_unnamedPool_ne _ calls (Provide_unnamedPool_ne s [some A])
  have hnp := run_namePool_ne _ calls (Provide_namePool_ne s [some A])
  have hBne : (edit (run (Provide s [some A]).1 calls).heap B).Name ≠ "" := by
    rw [hB]; exact hA
  have hcall : callOn (run (Provide s [some A]).1 calls) { edit := edit, objs := [some B] } =
      ({ g := (run (Provide s [some A]).1 calls).g,
         heap := stamp (edit (run (Provide s [some A]).1 calls).heap) B },
        .err (.duplicateName (some objectPtrType) (s.heap A).Name)) := by
    show Provide { g := (run (Provide s [some A]).1 calls).g,
                   heap := edit (run (Provide s [some A]).1 calls).heap } [some B] = _
    rw [Provide_single_named_dup
      { g := (run (Provide s [some A]).1 calls).g,
        heap := edit (run (Provide s [some A]).1 calls).heap } B (some A) hBne
      (by rw [hB]; exact hb2)]
    simp only [initPools_of_ne _ hu hnp, hB]
  rw [hcall, hty]
  exact ⟨rfl, hb2, rfl⟩

/-- C2, at a concrete input: a `*Foo` and a `*Bar`, both named "alt", on the empty graph. -/
theorem Provide_name_duplicate_witness :
    (callOn (run (Provide demoState [some 2]).1 []) { edit := id, objs := [some 3] }).2 =
        Ret.err (Error.duplicateName (some objectPtrType) "alt") ∧
      (callOn (run (Provide demoState [some 2]).1 [])
          { edit := id, objs := [some 3] }).1.g.namePool.get "alt" = some (some 2) :=
  ⟨(Provide_name_duplicate demoState 2 3 [] id (by decide) rfl rfl).1,
   (Provide_name_duplicate demoState 2 3 [] id (by decide) rfl rfl).2.1⟩

/-- C3. Disjoint namespaces, on the empty graph with the unnamed `*Foo` object 0 and the
`*Foo` object 2 named "alt": both are registered, in either order, and the name-pool holds
the named one under "alt"; but the type-pool does not hold the unnamed one under its type
`*Foo`: it holds it under `*inject.Object`, the type of the pointer.  So with only the
unnamed `*Bar` object 1 registered, when neither `*Foo` nor "alt" is a key yet, the unnamed
`*Foo` is rejected with the duplicate-type error. -/
theorem Provide_named_and_unnamed_key :
    (TypeOf (demoHeap 0).Value = some fooPtrType ∧ (demoHeap 0).Name = "" ∧
        TypeOf (demoHeap 2).Value = some fooPtrType ∧ (demoHeap 2).Name = "alt" ∧
        demoState.g.namePool.get "alt" = none ∧
        demoState.g.unnamedPool.get (some fooPtrType) = none) ∧
      ((Provide demoState [some 0]).2 = Ret.nil ∧
        (Provide (Provide demoState [some 0]).1 [some 2]).2 = Ret.nil ∧
        (Provide (Provide demoState [some 0]).1 [some 2]).1.g.namePool.get "alt" =
          some (some 2) ∧
        (Provide (Provide demoState [some 0]).1 [some 2]).1.g.unnamedPool.get
          (some fooPtrType) = none ∧
        (Provide (Provide demoState [some 0]).1 [some 2]).1.g.unnamedPool.get
          (some objectPtrType) = some (some 0)) ∧
      ((Provide demoState [some 2]).2 = Ret.nil ∧
        (Provide (Provide demoState [some 2]).1 [some 0]).2 = Ret.nil ∧
        (Provide (Provide demoState [some 2]).1 [some 0]).1.g.namePool.get "alt" =
          some (some 2) ∧
        (Provide (Provide demoState [some 2]).1 [some 0]).1.g.unnamedPool.get
          (some fooPtrType) = none ∧
        (Provide (Provide demoState [some 2]).1 [some 0]).1.g.unnamedPool.get
          (some objectPtrType) = some (some 0)) ∧
      (TypeOf (demoHeap 1).Value = some barPtrType ∧
        (Provide demoState [some 1]).2 = Ret.nil ∧
        (Provide demoState [some 1]).1.g.unnamedPool.get (some fooPtrType) = none ∧
        (Provide demoState [some 1]).1.g.namePool.get "alt" = none ∧
        (Provide (Provide demoState [some 1]).1 [some 0]).2 =
          Ret.err (Error.duplicateType (some objectPtrType) (some 1))) :=
  ⟨⟨rfl, rfl, rfl, rfl, rfl, rfl⟩, ⟨rfl, rfl, rfl, rfl, rfl⟩, ⟨rfl, rfl, rfl, rfl, rfl⟩,
   ⟨rfl, rfl, rfl, rfl, rfl⟩⟩

/-- C4. The classifier rule, for every type descriptor `t` and object `o`: a pointer to a
struct gives the nil error and sets the kind of `o` to `structPointer`; otherwise a function
type gives the nil error and sets the kind to `function`; otherwise the result is the
unsupported-type error (built from the reflected type and value of `o`) and nothing of `o`
is changed.  Every descriptor falls in exactly one of the three cases. -/
theorem isCorrectType_rule (h : Heap) (o : Nat) (t : RType) :
    (IsPointerToStruct t →
        isCorrectType h (some o) (some t) =
          (Function.update h o { h o with t := structPointer }, Ret.nil)) ∧
      (¬ IsPointerToStruct t → IsFunctionType t →
        isCorrectType h (some o) (some t) =
          (Function.update h o { h o with t := function }, Ret.nil)) ∧
      (¬ IsPointerToStruct t → ¬ IsFunctionType t →
        isCorrectType h (some o) (some t) =
          (h, Ret.err (Error.unsupportedType (h o).reflectType (h o).Value))) := by
  refine ⟨?_, ?_, ?_⟩
  · rintro ⟨name, rfl⟩
    rfl
  · rintro - ⟨signature, rfl⟩
    rfl
  · intro hp hf
    cases t with
    | scalar name k => cases k <;> rfl
    | struct name => rfl
    | interface name => rfl
    | func signature => exact absurd ⟨signature, rfl⟩ hf
    | pointer e =>
      cases e with
      | struct name => exact absurd ⟨name, rfl⟩ hp
      | scalar name k => cases k <;> rfl
      | interface name => rfl
      | func signature => rfl
      | pointer e => rfl
      | slice e => rfl
      | array len e => rfl
      | chan e => rfl
      | map key e => rfl
    | slice e => rfl
    | array len e => rfl
    | chan e => rfl
    | map key e => rfl

/-- C5. The kind `Provide` assigns does not follow the `Value`: `Provide` classifies the
`*Object` it is given, so the registered object 4 of the example heap, whose `Value` is a
`func()`, gets the kind `structPointer`, not `function`; and so does every object
registered by a one-element call, whatever its `Value` is. -/
theorem Provide_function_value_kind :
    (demoHeap 4).Value = some { typ := funcType, data := 4 } ∧
      IsFunctionType funcType ∧
      (Provide demoState [some 4]).2 = Ret.nil ∧
      ((Provide demoState [some 4]).1.heap 4).t = structPointer ∧
      ((Provide demoState [some 4]).1.heap 4).t ≠ function ∧
      (∀ (s : State) (a : Nat), ((Provide s [some a]).1.heap a).t = structPointer) := by
  refine ⟨rfl, ⟨"func()", rfl⟩, rfl, rfl, by decide, ?_⟩
  intro s a
  rw [Provide_single_heap]
  simp [stamp]

/-- C6. An unsupported value is not rejected: on the empty graph, `Provide` of object 5 of
the example heap, whose `Value` is the `int` 42, returns the nil error and inserts the
object into the type-pool and start-points; the valid unnamed `*Foo` provided next is then
the one that is rejected, with the duplicate-type error. -/
theorem Provide_int_value_accepted :
    (demoHeap 5).Value = some { typ := intType, data := 42 } ∧
      ¬ IsPointerToStruct intType ∧ ¬ IsFunctionType intType ∧
      (Provide demoState [some 5]).2 = Ret.nil ∧
      (Provide demoState [some 5]).1.g.unnamedPool = some [(some objectPtrType, some 5)] ∧
      (Provide demoState [some 5]).1.g.startPoint = [some 5] ∧
      (Provide (Provide demoState [some 5]).1 [some 0]).2 =
        Ret.err (Error.duplicateType (some objectPtrType) (some 5)) := by
  refine ⟨rfl, ?_, ?_, rfl, rfl, rfl, rfl⟩
  · rintro ⟨name, h⟩
    cases h
  · rintro ⟨signature, h⟩
    cases h

/-- C7. The reflected type `Provide` attaches is the type of the pointer, `*inject.Object`,
not the type of the `Value`: object 0 of the example heap holds a `*Foo` and is registered
under `*inject.Object`; object 1, an unnamed `*Bar`, is then rejected with the
duplicate-type error, so the two are not registered under two keys. -/
theorem Provide_type_key_not_of_value :
    TypeOf (demoHeap 0).Value = some fooPtrType ∧
      TypeOf (demoHeap 1).Value = some barPtrType ∧
      (Provide demoState [some 0]).2 = Ret.nil ∧
      ((Provide demoState [some 0]).1.heap 0).reflectType = some objectPtrType ∧
      ((Provide demoState [some 0]).1.heap 0).reflectType ≠ TypeOf (demoHeap 0).Value ∧
      (Provide demoState [some 0]).1.g.unnamedPool = some [(some objectPtrType, some 0)] ∧
      (Provide (Provide demoState [some 0]).1 [some 1]).2 =
        Ret.err (Error.duplicateType (some objectPtrType) (some 0)) ∧
      (Provide (Provide demoState [some 0]).1 [some 1]).1.g.unnamedPool =
        some [(some objectPtrType, some 0)] := by
  refine ⟨rfl, rfl, rfl, rfl, ?_, rfl, rfl, rfl⟩
  intro h
  have h2 : some objectPtrType = some fooPtrType := h
  simp [objectPtrType, fooPtrType, objectStructType] at h2

/-- C10. Append-only pools: whatever a call of `Provide` returns (nil, an error, a panic),
every key bound in the name-pool or in the type-pool before the call is bound to the same
object after it. -/
theorem Provide_pools_append_only (s : State) (objs : List Ptr) :
    (∀ (k : String) (p : Ptr), s.g.namePool.get k = some p →
        (Provide s objs).1.g.namePool.get k = some p) ∧
      (∀ (t : ReflectType) (p : Ptr), s.g.unnamedPool.get t = some p →
        (Provide s objs).1.g.unnamedPool.get t = some p) :=
  ⟨fun k p h => Provide_namePool_mono s objs k p h,
   fun t p h => Provide_unnamedPool_mono s objs t p h⟩

/-- C8. No rollback, first failure wins: when `Provide(objs)` returns an error there is an
index `i` such that the call on the items before `i` succeeds, the loop body rejects
`objs[i]` in the state so reached with the very error returned, and the pools and
start-points after `Provide(objs)` are those after the successful `Provide(objs[0..i))`:
start-points has grown by exactly the items before `i`. -/
theorem Provide_first_failure (s : State) (objs : List Ptr) (e : Error)
    (herr : (Provide s objs).2 = Ret.err e) :
    ∃ i, ∃ hi : i < objs.length,
      (Provide s (objs.take i)).2 = Ret.nil ∧
      (provideOne (Provide s (objs.take i)).1 (objs.get ⟨i, hi⟩)).2 = Ret.err e ∧
      (Provide s objs).1.g = (Provide s (objs.take i)).1.g ∧
      (Provide s objs).1.g.startPoint = s.g.startPoint ++ objs.take i := by
  obtain ⟨i, hi, h1, h2, h3⟩ := provideLoop_first_failure _ objs e herr
  refine ⟨i, hi, h1, h2, h3, ?_⟩
  have h4 : (Provide s objs).1.g.startPoint = (Provide s (objs.take i)).1.g.startPoint :=
    congrArg Graph.startPoint h3
  rw [h4, Provide_startPoint, accepted_of_nil _ _ h1]

/-- C8, at a concrete input: an unnamed `*Foo`, a named `*Foo`, then an unnamed `*Bar`
(rejected) and a named `*Bar`, on the empty graph. -/
theorem Provide_first_failure_witness :
    ∃ i, ∃ hi : i < [some 0, some 2, some 1, some 3].length,
      (Provide demoState ([some 0, some 2, some 1, some 3].take i)).2 = Ret.nil ∧
      (provideOne (Provide demoState ([some 0, some 2, some 1, some 3].take i)).1
        ([some 0, some 2, some 1, some 3].get ⟨i, hi⟩)).2 =
          Ret.err (Error.duplicateType (some objectPtrType) (some 0)) ∧
      (Provide demoState [some 0, some 2, some 1, some 3]).1.g =
        (Provide demoState ([some 0, some 2, some 1, some 3].take i)).1.g ∧
      (Provide demoState [some 0, some 2, some 1, some 3]).1.g.startPoint =
        demoState.g.startPoint ++ [some 0, some 2, some 1, some 3].take i :=
  Provide_first_failure demoState [some 0, some 2, some 1, some 3]
    (Error.duplicateType (some objectPtrType) (some 0)) rfl

/-- C9. Append-only ordering: after any sequence of `Provide` calls on a graph whose
start-points is empty, as `NewGraph` builds it (the caller may edit its objects between
the calls), start-points is the concatenation, in call order and in input order within a
call, of the arguments that were inserted; every call appends its inserted arguments to
the start-points it finds; the inserted arguments of a call that returns nil are all its
arguments; and every inserted argument is bound in one of the pools after its call. -/
theorem startPoint_append_only :
    (∀ (s : State) (calls : List Call), s.g.startPoint = [] →
        (run s calls).g.startPoint = acceptedAll s calls) ∧
      (∀ (s : State) (c : Call),
        (callOn s c).1.g.startPoint = s.g.startPoint ++ acceptedBy s c) ∧
      (∀ (s : State) (c : Call), (callOn s c).2 = Ret.nil → acceptedBy s c = c.objs) ∧
      (∀ (s : State) (c : Call) (p : Ptr), p ∈ acceptedBy s c →
        (∃ k, (callOn s c).1.g.namePool.get k = some p) ∨
          (∃ t, (callOn s c).1.g.unnamedPool.get t = some p)) := by
  refine ⟨?_, ?_, ?_, ?_⟩
  · intro s calls hs
    rw [run_startPoint, hs]
    simp
  · intro s c
    unfold callOn acceptedBy
    rw [Provide_startPoint]
  · intro s c h
    exact accepted_of_nil _ _ h
  · intro s c p hp
    exact accepted_bound _ _ p hp

/-- C9, at a concrete input: on the empty graph, a first call with an unnamed `*Foo`, a
`*Foo` named "alt", an unnamed `*Bar` (rejected) and a `*Bar` named "alt", then a second
call with that `*Bar` named "alt" (rejected) and a third with the `func()` (rejected). -/
theorem startPoint_append_only_witness :
    (run demoState
        [{ edit := id, objs := [some 0, some 2, some 1, some 3] },
         { edit := id, objs := [some 3] },
         { edit := id, objs := [some 4] }]).g.startPoint = [some 0, some 2] :=
  (startPoint_append_only.1 demoState
    [{ edit := id, objs := [some 0, some 2, some 1, some 3] },
     { edit := id, objs := [some 3] },
     { edit := id, objs := [some 4] }] rfl).trans rfl

/-- C10, at a concrete input: the binding of the first unnamed object survives a call that
is rejected. -/
theorem Provide_pools_append_only_witness :
    (Provide (Provide demoState [some 0]).1 [some 2, some 1]).1.g.unnamedPool.get
        (some objectPtrType) = some (some 0) :=
  (Provide_pools_append_only (Provide demoState [some 0]).1 [some 2, some 1]).2
    (some objectPtrType) (some 0) rfl

/-- C4, at concrete inputs: a `*Foo` descriptor is classified `structPointer`, and an `int`
descriptor is rejected with the object unchanged. -/
theorem isCorrectType_rule_witness :
    isCorrectType demoHeap (some 0) (some fooPtrType) =
        (Function.update demoHeap 0 { demoHeap 0 with t := structPointer }, Ret.nil) ∧
      isCorrectType demoHeap (some 5) (some intType) =
        (demoHeap, Ret.err (Error.unsupportedType (demoHeap 5).reflectType (demoHeap 5).Value)) :=
  ⟨(isCorrectType_rule demoHeap 0 fooPtrType).1 ⟨"Foo", rfl⟩,
   (isCorrectType_rule demoHeap 5 intType).2.2
     (by rintro ⟨name, h⟩; cases h) (by rintro ⟨signature, h⟩; cases h)⟩

/-- C11. Logger non-interference: on two graphs that differ at most in the logger, `Provide`
of the same arguments returns the same result and produces the same pools, the same
start-points and the same objects; each graph keeps its own logger. -/
theorem Provide_logger_independent (g1 g2 : Graph) (heap : Heap) (objs : List Ptr)
    (hsp : g1.startPoint = g2.startPoint) (hnp : g1.namePool = g2.namePool)
    (hup : g1.unnamedPool = g2.unnamedPool) :
    (Provide { g := g1, heap := heap } objs).2 = (Provide { g := g2, heap := heap } objs).2 ∧
      (Provide { g := g1, heap := heap } objs).1.g.namePool =
        (Provide { g := g2, heap := heap } objs).1.g.namePool ∧
      (Provide { g := g1, heap := heap } objs).1.g.unnamedPool =
        (Provide { g := g2, heap := heap } objs).1.g.unnamedPool ∧
      (Provide { g := g1, heap := heap } objs).1.g.startPoint =
        (Provide { g := g2, heap := heap } objs).1.g.startPoint ∧
      (Provide { g := g1, heap := heap } objs).1.heap =
        (Provide { g := g2, heap := heap } objs).1.heap ∧
      (Provide { g := g1, heap := heap } objs).1.g.logger = g1.logger ∧
      (Provide { g := g2, heap := heap } objs).1.g.logger = g2.logger := by
  have h2 : g2 = withLogger g1 g2.logger := by
    obtain ⟨l1, sp1, np1, up1⟩ := g1
    obtain ⟨l2, sp2, np2, up2⟩ := g2
    simp only at hsp hnp hup
    subst hsp hnp hup
    rfl
  have hl1 : (Provide { g := g1, heap := heap } objs).1.g.logger = g1.logger := by
    unfold Provide
    rw [provideLoop_logger, initPools_logger]
  rw [h2, Provide_withLogger]
  exact ⟨rfl, rfl, rfl, rfl, rfl, hl1, rfl⟩

/-- C11, at a concrete input: the empty graph without a logger and with logger 7, on a
batch whose third item is rejected. -/
theorem Provide_logger_independent_witness :
    (Provide { g := emptyGraph, heap := demoHeap } [some 0, some 2, some 1]).2 =
        (Provide { g := withLogger emptyGraph (some 7), heap := demoHeap }
          [some 0, some 2, some 1]).2 ∧
      (Provide { g := emptyGraph, heap := demoHeap } [some 0, some 2, some 1]).1.g.startPoint =
        (Provide { g := withLogger emptyGraph (some 7), heap := demoHeap }
          [some 0, some 2, some 1]).1.g.startPoint :=
  ⟨(Provide_logger_independent emptyGraph (withLogger emptyGraph (some 7)) demoHeap
      [some 0, some 2, some 1] rfl rfl rfl).1,
   (Provide_logger_independent emptyGraph (withLogger emptyGraph (some 7)) demoHeap
      [some 0, some 2, some 1] rfl rfl rfl).2.2.2.1⟩

/-- C12, as stated, fails: the signature accepts a nil `*GraphConfig`, and `NewGraph(nil)`
panics on reading `c.Logger`. -/
theorem NewGraph_nil_counterexample : NewGraph none = Except.error nilDeref := rfl

/-- C12, amended. For every non-nil configuration, with a logger or without one,
`NewGraph` returns a graph: it stores the configured logger and has empty start-points and
no pool entries (both maps are nil). -/
theorem NewGraph_of_config (cfg : GraphConfig) :
    ∃ g, NewGraph (some cfg) = Except.ok g ∧ g.logger = cfg.Logger ∧ g.startPoint = [] ∧
      g.namePool.len = 0 ∧ g.unnamedPool.len = 0 ∧
      (∀ k, g.namePool.get k = none) ∧ (∀ t, g.unnamedPool.get t = none) ∧
      IsEmptyGraph g :=
  ⟨_, rfl, rfl, rfl, rfl, rfl, fun _ => rfl, fun _ => rfl, rfl, rfl, rfl⟩

/-- C13. Store separation: a successful registration of an object with a non-empty `Name`
leaves the type-pool as it is (a nil map becomes the empty map) and adds exactly one entry,
the object under its name, to the name-pool; a successful registration of an object with an
empty `Name` leaves the name-pool as it is and adds exactly one entry, the object under the
reflected type attached to it, to the type-pool. -/
theorem Provide_store_separation (s : State) (a : Nat)
    (hok : (Provide s [some a]).2 = Ret.nil) :
    ((s.heap a).Name ≠ "" →
        (Provide s [some a]).1.g.unnamedPool = orEmpty s.g.unnamedPool ∧
        (∀ t, (Provide s [some a]).1.g.unnamedPool.get t = s.g.unnamedPool.get t) ∧
        (Provide s [some a]).1.g.unnamedPool.len = s.g.unnamedPool.len ∧
        (Provide s [some a]).1.g.namePool.len = s.g.namePool.len + 1 ∧
        (Provide s [some a]).1.g.namePool.get (s.heap a).Name = some (some a) ∧
        (∀ k, k ≠ (s.heap a).Name →
          (Provide s [some a]).1.g.namePool.get k = s.g.namePool.get k)) ∧
      ((s.heap a).Name = "" →
        (Provide s [some a]).1.g.namePool = orEmpty s.g.namePool ∧
        (∀ k, (Provide s [some a]).1.g.namePool.get k = s.g.namePool.get k) ∧
        (Provide s [some a]).1.g.namePool.len = s.g.namePool.len ∧
        (Provide s [some a]).1.g.unnamedPool.len = s.g.unnamedPool.len + 1 ∧
        (Provide s [some a]).1.g.unnamedPool.get
          ((Provide s [some a]).1.heap a).reflectType = some (some a) ∧
        (∀ t, t ≠ ((Provide s [some a]).1.heap a).reflectType →
          (Provide s [some a]).1.g.unnamedPool.get t = s.g.unnamedPool.get t)) := by
  have hrt : ((Provide s [some a]).1.heap a).reflectType = some objectPtrType := by
    rw [Provide_single_heap, stamp_reflectType_self]
  rw [hrt]
  rw [Provide_single] at hok ⊢
  have hi := initPools_eq_orEmpty s.g
  rcases provideOne_cases { g := initPools s.g, heap := s.heap } a with
    ⟨_, _, _, he⟩ | ⟨_, _, _, _, he⟩ | ⟨m, hn, hfree, hset, he⟩ |
    ⟨_, _, _, he⟩ | ⟨_, _, _, _, he⟩ | ⟨m, hn, hfree, hset, he⟩
  · rw [he] at hok; simp at hok
  · rw [he] at hok; simp at hok
  · rw [he]
    refine ⟨fun h => absurd hn h, fun _ => ⟨?_, ?_, ?_, ?_, ?_, ?_⟩⟩
    · show (initPools s.g).namePool = _
      rw [hi]
    · intro k
      exact initPools_namePool_get s.g k
    · exact initPools_namePool_len s.g
    · show m.len = _
      rw [GoMap.len_set _ _ _ _ hfree hset, initPools_unnamedPool_len]
    · exact GoMap.get_set_self _ _ _ _ hset
    · intro t ht
      show m.get t = _
      rw [GoMap.get_set_other _ _ _ t _ hset (fun h => ht h.symm), initPools_unnamedPool_get]
  · rw [he] at hok; simp at hok
  · rw [he] at hok; simp at hok
  · rw [he]
    refine ⟨fun _ => ⟨?_, ?_, ?_, ?_, ?_, ?_⟩, fun h => absurd h hn⟩
    · show (initPools s.g).unnamedPool = _
      rw [hi]
    · intro t
      exact initPools_unnamedPool_get s.g t
    · exact initPools_unnamedPool_len s.g
    · show m.len = _
      rw [GoMap.len_set _ _ _ _ hfree hset, initPools_namePool_len]
    · exact GoMap.get_set_self _ _ _ _ hset
    · intro k hk
      show m.get k = _
      rw [GoMap.get_set_other _ _ _ k _ hset (fun h => hk h.symm), initPools_namePool_get]

/-- C13, at a concrete input: after the unnamed `*Foo` object 0, the registration of the
`*Foo` object 2 named "alt" leaves the type-pool with its one entry and gives the name-pool
its first entry. -/
theorem Provide_store_separation_witness :
    (Provide (Provide demoState [some 0]).1 [some 2]).1.g.unnamedPool.len = 1 ∧
      (Provide (Provide demoState [some 0]).1 [some 2]).1.g.namePool.len = 0 + 1 :=
  ⟨((Provide_store_separation (Provide demoState [some 0]).1 2 rfl).1 (by decide)).2.2.1,
   ((Provide_store_separation (Provide demoState [some 0]).1 2 rfl).1 (by decide)).2.2.2.1⟩

/-- C14. Caller-owned fields are untouched: whatever `Provide` returns, the `Value`, the
`Name` and the `complete` flag of every object are after the call what they were before
it, and an object that is not among the arguments is not written at all. -/
theorem Provide_owned_fields (s : State) (objs : List Ptr) (a : Nat) :
    ((Provide s objs).1.heap a).Value = (s.heap a).Value ∧
      ((Provide s objs).1.heap a).Name = (s.heap a).Name ∧
      ((Provide s objs).1.heap a).complete = (s.heap a).complete ∧
      (some a ∉ objs → (Provide s objs).1.heap a = s.heap a) := by
  obtain ⟨h1, h2, h3⟩ := provideLoop_heap_owned { g := initPools s.g, heap := s.heap } objs a
  exact ⟨h1, h2, h3, fun h => provideLoop_heap_of_not_mem _ objs a h⟩

/-- C16. Lazy pool initialisation: `Provide` on a graph gives the same result and the same
state as `Provide` on the graph in which each nil pool is replaced by an empty map; a panic
of `Provide` is never the one of an assignment to a nil map, only the nil dereference of a
nil argument; and after every call, also one without arguments, both maps are present. -/
theorem Provide_lazy_pools (s : State) (objs : List Ptr) :
    Provide s objs =
        Provide { g := { s.g with namePool := orEmpty s.g.namePool,
                                  unnamedPool := orEmpty s.g.unnamedPool },
                  heap := s.heap } objs ∧
      (∀ msg, (Provide s objs).2 = Ret.panic msg → none ∈ objs ∧ msg = nilDeref) ∧
      (Provide s objs).1.g.namePool ≠ none ∧ (Provide s objs).1.g.unnamedPool ≠ none ∧
      (Provide s []).1.g.namePool ≠ none ∧ (Provide s []).1.g.unnamedPool ≠ none := by
  refine ⟨?_, ?_, Provide_namePool_ne s objs, Provide_unnamedPool_ne s objs,
    Provide_namePool_ne s [], Provide_unnamedPool_ne s []⟩
  · unfold Provide
    rw [← initPools_eq_orEmpty, initPools_idem]
  · intro msg h
    exact provideLoop_panic _ objs msg (initPools_unnamedPool_ne s.g)
      (initPools_namePool_ne s.g) h

/-- C20. Batch splitting: `Provide(xs ++ ys)` gives the result and the state of
`Provide(xs)` followed, when that returns nil, by `Provide(ys)`, and those of `Provide(xs)`
alone otherwise; `Provide` without arguments returns nil and changes neither the pool
contents nor start-points nor any object. -/
theorem Provide_append (s : State) (xs ys : List Ptr) :
    Provide s (xs ++ ys) =
        (if (Provide s xs).2 = Ret.nil then Provide (Provide s xs).1 ys else Provide s xs) ∧
      (Provide s []).2 = Ret.nil ∧
      (Provide s []).1.g.startPoint = s.g.startPoint ∧
      (Provide s []).1.heap = s.heap ∧
      (∀ k, (Provide s []).1.g.namePool.get k = s.g.namePool.get k) ∧
      (∀ t, (Provide s []).1.g.unnamedPool.get t = s.g.unnamedPool.get t) ∧
      (Provide s []).1.g.namePool.len = s.g.namePool.len ∧
      (Provide s []).1.g.unnamedPool.len = s.g.unnamedPool.len := by
  refine ⟨?_, rfl, initPools_startPoint s.g, rfl, initPools_namePool_get s.g,
    initPools_unnamedPool_get s.g, initPools_namePool_len s.g, initPools_unnamedPool_len s.g⟩
  have hfix : ∀ zs, Provide (Provide s xs).1 zs = provideLoop (Provide s xs).1 zs := by
    intro zs
    unfold Provide
    rw [initPools_of_ne _ (provideLoop_unnamedPool_ne _ xs (initPools_unnamedPool_ne s.g))
      (provideLoop_namePool_ne _ xs (initPools_namePool_ne s.g))]
  rw [hfix]
  unfold Provide
  exact provideLoop_append _ xs ys

/-- C15. Classified-kind invariant: in every state reachable from an empty graph, every
pointer held in start-points, the name-pool or the type-pool is a non-nil object whose
kind is `structPointer` or `function`, never the zero kind; an argument that the loop body
does not accept (for whatever reason) is not inserted by it, the graph is left as it is;
and the classification of an argument of `Provide` never fails. -/
theorem Reachable_kinds (s : State) (hr : Reachable s) :
    (∀ p, Holds s.g p → ∃ a, p = some a ∧
        ((s.heap a).t = structPointer ∨ (s.heap a).t = function) ∧ (s.heap a).t ≠ 0) ∧
      (∀ v, (provideOne s v).2 ≠ Ret.nil → (provideOne s v).1.g = s.g) ∧
      (∀ (h : Heap) (a : Nat),
        (isCorrectType h (some a) (TypeOf (ptrToAny (some a)))).2 = Ret.nil) := by
  have inv := Inv_of_reachable s hr
  refine ⟨?_, fun v hv => provideOne_g_of_ne_nil s v hv, fun h a => rfl⟩
  intro p hp
  obtain ⟨a, hpa, ht, _, _⟩ := inv.start p (Inv_holds_start s inv p hp)
  refine ⟨a, hpa, Or.inl ht, ?_⟩
  rw [ht]
  decide

/-- C15, at a concrete input: the object bound under "alt" in the example state. -/
theorem Reachable_kinds_witness :
    ∃ a, some 2 = some a ∧
      (((Provide demoState [some 0, some 2]).1.heap a).t = structPointer ∨
        ((Provide demoState [some 0, some 2]).1.heap a).t = function) ∧
      ((Provide demoState [some 0, some 2]).1.heap a).t ≠ 0 :=
  (Reachable_kinds _ demo_reachable).1 (some 2) (Or.inr (Or.inl ⟨"alt", rfl⟩))

/-- C17. Key consistency: in every state reachable from an empty graph (the caller leaves
the registered objects as they are), every name-pool entry under a key `k` is a non-nil
object whose `Name` is `k`, and `k` is not empty; every type-pool entry under a key `t` is
a non-nil object whose `Name` is empty and whose attached reflected type is `t`. -/
theorem Reachable_key_consistency (s : State) (hr : Reachable s) :
    (∀ k p, s.g.namePool.get k = some p →
        ∃ a, p = some a ∧ (s.heap a).Name = k ∧ k ≠ "") ∧
      (∀ t p, s.g.unnamedPool.get t = some p →
        ∃ a, p = some a ∧ (s.heap a).Name = "" ∧ (s.heap a).reflectType = t) := by
  have inv := Inv_of_reachable s hr
  refine ⟨fun k p hk => (inv.named k p hk).2, ?_⟩
  intro t p ht
  obtain ⟨hmem, hkey, a, hpa, hn⟩ := inv.unnamed t p ht
  obtain ⟨b, hpb, _, hrt, _⟩ := inv.start p hmem
  have hab : a = b := Option.some.inj (hpa.symm.trans hpb)
  subst hab
  exact ⟨a, hpa, hn, by rw [hrt, hkey]⟩

/-- C17, at a concrete input: the two entries of the example state. -/
theorem Reachable_key_consistency_witness :
    (∃ a, some 2 = some a ∧ ((Provide demoState [some 0, some 2]).1.heap a).Name = "alt" ∧
        "alt" ≠ "") ∧
      (∃ a, some 0 = some a ∧ ((Provide demoState [some 0, some 2]).1.heap a).Name = "" ∧
        ((Provide demoState [some 0, some 2]).1.heap a).reflectType = some objectPtrType) :=
  ⟨(Reachable_key_consistency _ demo_reachable).1 "alt" (some 2) rfl,
   (Reachable_key_consistency _ demo_reachable).2 (some objectPtrType) (some 0) rfl⟩

/-- C18. Start-points and pools correspond: in every state reachable from an empty graph
the length of start-points is the number of name-pool entries plus the number of type-pool
entries (no key occurs twice in a pool); an object is in start-points if and only if it is
the value bound in the type-pool under its reflected type, when its `Name` is empty, or in
the name-pool under its `Name`, when it is not; and start-points holds no nil pointer. -/
theorem Reachable_startPoint_pools (s : State) (hr : Reachable s) :
    s.g.startPoint.length = s.g.namePool.len + s.g.unnamedPool.len ∧
      s.g.namePool.keys.Nodup ∧ s.g.unnamedPool.keys.Nodup ∧
      (∀ a, some a ∈ s.g.startPoint ↔
        (((s.heap a).Name = "" ∧
            s.g.unnamedPool.get (s.heap a).reflectType = some (some a)) ∨
          ((s.heap a).Name ≠ "" ∧ s.g.namePool.get (s.heap a).Name = some (some a)))) ∧
      none ∉ s.g.startPoint := by
  have inv := Inv_of_reachable s hr
  refine ⟨inv.length, inv.nameKeys, ?_, ?_, ?_⟩
  · rcases inv.single with h0 | ⟨p, hp⟩
    · have hk : s.g.unnamedPool.keys.length = 0 := by rw [← GoMap.len_eq_keys]; exact h0
      rw [List.length_eq_zero.mp hk]
      exact List.nodup_nil
    · rw [hp]
      exact List.nodup_singleton _
  · intro a
    constructor
    · intro hmem
      obtain ⟨b, hb, _, hrt, hcase⟩ := inv.start (some a) hmem
      have hab : a = b := Option.some.inj hb
      subst hab
      rcases hcase with ⟨hn, hu⟩ | hnamed
      · exact Or.inl ⟨hn, by rw [hrt]; exact hu⟩
      · exact Or.inr hnamed
    · rintro (⟨_, hu⟩ | ⟨_, hk⟩)
      · exact (inv.unnamed _ _ hu).1
      · exact (inv.named _ _ hk).1
  · intro hmem
    obtain ⟨b, hb, _⟩ := inv.start none hmem
    exact Option.noConfusion hb

/-- C18, at a concrete input: start-points of the example state has the two registered
objects, one for each pool entry. -/
theorem Reachable_startPoint_pools_witness :
    (Provide demoState [some 0, some 2]).1.g.startPoint.length =
        (Provide demoState [some 0, some 2]).1.g.namePool.len +
          (Provide demoState [some 0, some 2]).1.g.unnamedPool.len ∧
      (Provide demoState [some 0, some 2]).1.g.startPoint = [some 0, some 2] :=
  ⟨(Reachable_startPoint_pools _ demo_reachable).1, rfl⟩

/-- C19. At most one unnamed object per graph: `Provide` takes the reflected type of the
`*Object` it is given, so in every state reachable from an empty graph the type-pool has
at most one entry; the classifier accepts every argument of `Provide` as a pointer to a
struct, and `Provide` never returns the unsupported-type error; with no entry in the
type-pool an unnamed object is registered, and with one entry an unnamed object is
rejected with the duplicate-type error, whatever the two values are. -/
theorem Reachable_single_unnamed (s : State) (hr : Reachable s) :
    s.g.unnamedPool.len ≤ 1 ∧
      (∀ (h : Heap) (a : Nat), isCorrectType h (some a) (TypeOf (ptrToAny (some a))) =
        (Function.update h a { h a with t := structPointer }, Ret.nil)) ∧
      (∀ objs t x, (Provide s objs).2 ≠ Ret.err (Error.unsupportedType t x)) ∧
      (∀ b, (s.heap b).Name = "" → s.g.unnamedPool.len = 0 →
        (Provide s [some b]).2 = Ret.nil ∧ (Provide s [some b]).1.g.unnamedPool.len = 1) ∧
      (∀ b, (s.heap b).Name = "" → s.g.unnamedPool.len = 1 →
        ∃ held, s.g.unnamedPool.get (some objectPtrType) = some held ∧
          (Provide s [some b]).2 =
            Ret.err (Error.duplicateType (some objectPtrType) held) ∧
          (Provide s [some b]).1.g.unnamedPool = s.g.unnamedPool) := by
  have inv := Inv_of_reachable s hr
  refine ⟨?_, fun h a => rfl, fun objs t x => provideLoop_not_unsupported _ objs t x, ?_, ?_⟩
  · rcases inv.single with h0 | ⟨p, hp⟩
    · rw [h0]; exact Nat.zero_le 1
    · rw [hp]; exact Nat.le_refl 1
  · intro b hn h0
    have hfree := GoMap.get_of_len_zero s.g.unnamedPool (some objectPtrType) h0
    refine ⟨(Provide_single_unnamed_ok s b hn hfree).1, ?_⟩
    have hinv := Inv_Provide s [some b] inv
    rcases hinv.single with k0 | ⟨p, hp⟩
    · have hb := (Provide_single_unnamed_ok s b hn hfree).2.1
      rw [GoMap.get_of_len_zero _ _ k0] at hb
      exact absurd hb (by simp)
    · rw [hp]; rfl
  · intro b hn h1
    rcases inv.single with h0 | ⟨p, hp⟩
    · rw [h0] at h1
      exact absurd h1 (by decide)
    · refine ⟨p, by rw [hp]; simp [GoMap.get, lookup], ?_⟩
      have hget : s.g.unnamedPool.get (some objectPtrType) = some p := by
        rw [hp]; simp [GoMap.get, lookup]
      rw [Provide_single_unnamed_dup s b p hn hget]
      refine ⟨rfl, ?_⟩
      show (initPools s.g).unnamedPool = s.g.unnamedPool
      rw [initPools_eq_orEmpty]
      show orEmpty s.g.unnamedPool = s.g.unnamedPool
      rw [hp]
      rfl

/-- C19, at a concrete input: in the example state the unnamed `*Bar` object 1 and the
unnamed `int` object 5 are both rejected because of the registered `*Foo` object 0. -/
theorem Reachable_single_unnamed_witness :
    (Provide demoState [some 0, some 2]).1.g.unnamedPool.len ≤ 1 ∧
      (∃ held, (Provide demoState [some 0, some 2]).1.g.unnamedPool.get
            (some objectPtrType) = some held ∧
          (Provide (Provide demoState [some 0, some 2]).1 [some 5]).2 =
            Ret.err (Error.duplicateType (some objectPtrType) held) ∧
          (Provide (Provide demoState [some 0, some 2]).1 [some 5]).1.g.unnamedPool =
            (Provide demoState [some 0, some 2]).1.g.unnamedPool) :=
  ⟨(Reachable_single_unnamed _ demo_reachable).1,
   (Reachable_single_unnamed _ demo_reachable).2.2.2.2 5 rfl rfl⟩

end Inject
